import Mathlib

/-!
Verification of the r-lox interpreter core (src/ast.rs, src/environment.rs,
src/eval.rs, src/main.rs, src/embedded/func.rs) via a shallow embedding.

Modelling conventions:
* Rust f64 literals and arithmetic are modelled by the rational numbers
  (none of the properties checked here depends on floating-point rounding,
  infinities or NaN; the numeric payload is otherwise passed through intact).
* A Rust panic (unwrap of None, downcast failure, integer-overflow abort) is
  a distinguished outcome, kept separate from the Result error channel.
* Possibly non-terminating loops and recursion are given a fuel parameter;
  a result of none means the computation did not complete within the given
  fuel.  All other outcomes are exact.
* usize subtraction in Parser::back is modelled with release-mode wrapping
  semantics, explicitly reduced modulo 2 ^ 64.
* println output is collected in an ordered list of rendered lines.
-/

namespace RLox

/-- Alias for the string type, needed because the token and AST inductives
declare constructors that are themselves named String. -/
abbrev Str := String

/-- Mirrors enum TokenType of src/token.rs (a Token carries in addition a
lexeme and source position, but the parser only ever inspects token_type). -/
inductive Tok where
  | LeftParen | RightParen | LeftBrace | RightBrace
  | Comma | Dot | Minus | Plus | SemiColon | Slash | Star
  | Bang | BangEqual | Equal | EqualEqual
  | Greater | GreaterEqual | Less | LessEqual
  | Identifier (s : Str)
  | String (s : Str)
  | Number (n : Rat)
  | And | Class | Else | False | Fun | For | If | Nil | Or
  | Print | Return | Super | This | True | Var | While | Eof
deriving DecidableEq

/-- Debug rendering of a token kind, standing in for format with the
Debug formatter on TokenType (used only inside error payload strings). -/
def Tok.fmt : Tok → Str
  | .LeftParen => "LeftParen" | .RightParen => "RightParen"
  | .LeftBrace => "LeftBrace" | .RightBrace => "RightBrace"
  | .Comma => "Comma" | .Dot => "Dot" | .Minus => "Minus" | .Plus => "Plus"
  | .SemiColon => "SemiColon" | .Slash => "Slash" | .Star => "Star"
  | .Bang => "Bang" | .BangEqual => "BangEqual" | .Equal => "Equal"
  | .EqualEqual => "EqualEqual" | .Greater => "Greater"
  | .GreaterEqual => "GreaterEqual" | .Less => "Less"
  | .LessEqual => "LessEqual"
  | .Identifier s => "Identifier(" ++ s ++ ")"
  | .String s => "String(" ++ s ++ ")"
  | .Number _ => "Number"
  | .And => "And" | .Class => "Class" | .Else => "Else" | .False => "False"
  | .Fun => "Fun" | .For => "For" | .If => "If" | .Nil => "Nil"
  | .Or => "Or" | .Print => "Print" | .Return => "Return"
  | .Super => "Super" | .This => "This" | .True => "True" | .Var => "Var"
  | .While => "While" | .Eof => "Eof"

/-- Mirrors enum AstType of src/ast.rs. -/
inductive AstType where
  | Var (name : Str) (init : AstType)
  | Fun (name : Str) (args : List AstType) (body : AstType)
  | Print (o : AstType)
  | Block (stmts : List AstType)
  | While (cond body : AstType)
  | If (cond thenS elseS : AstType)
  | Return (o : AstType)
  | Assign (name : Str) (o : AstType)
  | BangEqual (l r : AstType)
  | EqualEqual (l r : AstType)
  | And (l r : AstType)
  | Or (l r : AstType)
  | Greater (l r : AstType)
  | GreaterEqual (l r : AstType)
  | Less (l r : AstType)
  | LessEqual (l r : AstType)
  | Minus (l r : AstType)
  | Plus (l r : AstType)
  | Div (l r : AstType)
  | Mul (l r : AstType)
  | Bang (o : AstType)
  | UnaryMinus (o : AstType)
  | Call (callee : Str) (args : List AstType)
  | Grouping (o : AstType)
  | Number (n : Rat)
  | String (s : Str)
  | True
  | False
  | Nil
  | Identifier (name : Str)

/-- Mirrors enum ParseError of src/ast.rs. -/
inductive ParseError where
  | CouldNotReadToken
  | NotFoundToken (s : String)
  | NotFoundAstType (s : String)
  | NotSupportToken (s : String)
deriving DecidableEq

/-- Shape of a parser production result: a single AST node, a node list
(arguments, parameters, a whole program), or nothing (synchronize). -/
inductive PRes where
  | ast (a : AstType)
  | list (l : List AstType)
  | unit

/-- One continuation point of the recursive-descent parser: each
constructor names a parsing method of impl Parser (src/ast.rs), with loop
bodies (or_parse, arguments, program, synchronize, ...) carrying their
accumulated state explicitly. -/
inductive PK where
  | declaration
  | varDeclaration
  | declIdentifier (name : Str)
  | funDeclaration
  | funParameters (acc : List AstType)
  | funOneParameter
  | statement
  | returnStatement
  | whileStatement
  | forStatement
  | forInit
  | forCondition
  | forIncrement
  | ifStatement
  | printStatement
  | blockStatement (acc : List AstType)
  | expressionStmt
  | expression
  | assignment
  | orParse
  | orLoop (e : AstType)
  | andParse
  | andLoop (e : AstType)
  | equality
  | equalityLoop (e : AstType)
  | comparison
  | comparisonLoop (e : AstType)
  | term
  | termLoop (e : AstType)
  | factor
  | factorLoop (e : AstType)
  | unary
  | call
  | arguments (acc : List AstType)
  | primary
  | programLoop (acc : List AstType)
  | synchronizeLoop

/-- Parser outcome: production result plus the new read position; none
means the fuel ran out before the parse completed. -/
abbrev PResult := Option (Except ParseError PRes × Nat)

/-- 2 ^ 64, the modulus of usize arithmetic. -/
def USIZE : Nat := 2 ^ 64

/-- Parser::back — read_pos -= 1 with release-mode wrapping semantics
(the only call that actually wraps is the one at read position 0). -/
def backW (pos : Nat) : Nat := (pos + (USIZE - 1)) % USIZE

/-- Parser::end — read_pos >= tokens.len() or the current token is Eof. -/
def endP (toks : List Tok) (pos : Nat) : Bool :=
  if pos ≥ toks.length then true
  else if toks.getD pos Tok.Eof = Tok.Eof then true
  else false

/-- Parser::token — None at the end of input, otherwise the current token
and the advanced read position. -/
def tokenF (toks : List Tok) (pos : Nat) : Option (Tok × Nat) :=
  if endP toks pos then none else some (toks.getD pos Tok.Eof, pos + 1)

/-- Parser::consume. -/
def consumeF (toks : List Tok) (expect : Option Tok) (pos : Nat) :
    Except ParseError Tok × Nat :=
  if endP toks pos then (.error .CouldNotReadToken, pos)
  else
    match tokenF toks pos with
    | none => (.error .CouldNotReadToken, pos)
    | some (t, p1) =>
      match expect with
      | none => (.ok t, p1)
      | some e =>
        if e = t then (.ok t, p1)
        else (.error (.NotFoundToken (Tok.fmt e)), p1)

/-- Sequencing helper for sub-parses expected to yield a single AST node;
errors (and fuel exhaustion) short-circuit.  The shape-mismatch fallback
branch is unreachable in the embedded grammar. -/
def bindAst (r : PResult) (k : AstType → Nat → PResult) : PResult :=
  match r with
  | none => none
  | some (.ok (.ast a), p) => k a p
  | some (.ok _, p) => some (.error .CouldNotReadToken, p)
  | some (.error e, p) => some (.error e, p)

/-- Sequencing helper for sub-parses expected to yield a node list. -/
def bindList (r : PResult) (k : List AstType → Nat → PResult) : PResult :=
  match r with
  | none => none
  | some (.ok (.list l), p) => k l p
  | some (.ok _, p) => some (.error .CouldNotReadToken, p)
  | some (.error e, p) => some (.error e, p)

/-- Sequencing helper for consume results. -/
def bindTok (r : Except ParseError Tok × Nat) (k : Tok → Nat → PResult) :
    PResult :=
  match r with
  | (.ok t, p) => k t p
  | (.error e, p) => some (.error e, p)

/-- The recursive-descent parser of src/ast.rs: one step function over the
production continuations of PK.  Fuel decreases on every recursive entry;
every other aspect (token consumption, back-ups, error values, the
255-entry cap of arguments and fun_parameters, panic-mode recovery of
program, wrap-around of back) follows the source line by line. -/
def parseF (toks : List Tok) : Nat → PK → Nat → PResult
  | 0, _, _ => none
  | f + 1, k, pos =>
    match k with
    | .declaration =>
      match tokenF toks pos with
      | none => some (.error .CouldNotReadToken, pos)
      | some (t, p1) =>
        match t with
        | .Var => parseF toks f .varDeclaration p1
        | .Fun => parseF toks f .funDeclaration p1
        | _ => parseF toks f .statement (backW p1)
    | .varDeclaration =>
      match tokenF toks pos with
      | none => some (.error .CouldNotReadToken, pos)
      | some (.Identifier i, p1) => parseF toks f (.declIdentifier i) p1
      | some (_, p1) => some (.error (.NotFoundToken "Identifier"), p1)
    | .declIdentifier name =>
      match tokenF toks pos with
      | none => some (.error (.NotFoundToken "Identifier"), pos)
      | some (.Equal, p1) =>
        bindAst (parseF toks f .expression p1) fun e p2 =>
          bindTok (consumeF toks (some .SemiColon) p2) fun _ p3 =>
            some (.ok (.ast (.Var name e)), p3)
      | some (.SemiColon, p1) => some (.ok (.ast (.Var name .Nil)), p1)
      | some (_, p1) => some (.error (.NotFoundToken "SemiColon"), p1)
    | .funDeclaration =>
      match tokenF toks pos with
      | none => some (.error .CouldNotReadToken, pos)
      | some (.Identifier i, p1) =>
        bindTok (consumeF toks (some .LeftParen) p1) fun _ p2 =>
          bindList (parseF toks f (.funParameters []) p2) fun args p3 =>
            bindTok (consumeF toks (some .RightParen) p3) fun _ p4 =>
              bindTok (consumeF toks (some .LeftBrace) p4) fun _ p5 =>
                bindAst (parseF toks f (.blockStatement []) p5) fun body p6 =>
                  some (.ok (.ast (.Fun i args body)), p6)
      | some (_, p1) => some (.error (.NotFoundToken "Identifier"), p1)
    | .funParameters acc =>
      match tokenF toks pos with
      | none => some (.error .CouldNotReadToken, pos)
      | some (.RightParen, p1) => some (.ok (.list acc), backW p1)
      | some (.Comma, p1) => parseF toks f (.funParameters acc) p1
      | some (_, p1) =>
        bindAst (parseF toks f .funOneParameter (backW p1)) fun a p2 =>
          if (acc ++ [a]).length ≥ 255 then some (.ok (.list (acc ++ [a])), p2)
          else parseF toks f (.funParameters (acc ++ [a])) p2
    | .funOneParameter =>
      match tokenF toks pos with
      | none => some (.error .CouldNotReadToken, pos)
      | some (.Identifier _, p1) => parseF toks f .primary (backW p1)
      | some (_, p1) => some (.error (.NotFoundToken "Identifier"), p1)
    | .statement =>
      match tokenF toks pos with
      | none => some (.error .CouldNotReadToken, pos)
      | some (t, p1) =>
        match t with
        | .Print => parseF toks f .printStatement p1
        | .If => parseF toks f .ifStatement p1
        | .While => parseF toks f .whileStatement p1
        | .For => parseF toks f .forStatement p1
        | .Return => parseF toks f .returnStatement p1
        | .LeftBrace => parseF toks f (.blockStatement []) p1
        | _ => parseF toks f .expressionStmt (backW p1)
    | .returnStatement =>
      match tokenF toks pos with
      | none => some (.error .CouldNotReadToken, pos)
      | some (.SemiColon, p1) =>
        bindTok (consumeF toks (some .SemiColon) (backW p1)) fun _ p2 =>
          some (.ok (.ast (.Return .Nil)), p2)
      | some (_, p1) =>
        bindAst (parseF toks f .expression (backW p1)) fun e p2 =>
          bindTok (consumeF toks (some .SemiColon) p2) fun _ p3 =>
            some (.ok (.ast (.Return e)), p3)
    | .whileStatement =>
      bindTok (consumeF toks (some .LeftParen) pos) fun _ p1 =>
        bindAst (parseF toks f .expression p1) fun c p2 =>
          bindTok (consumeF toks (some .RightParen) p2) fun _ p3 =>
            bindAst (parseF toks f .statement p3) fun s p4 =>
              some (.ok (.ast (.While c s)), p4)
    | .forStatement =>
      bindTok (consumeF toks (some .LeftParen) pos) fun _ p1 =>
        bindAst (parseF toks f .forInit p1) fun ini p2 =>
          bindAst (parseF toks f .forCondition p2) fun c p3 =>
            bindTok (consumeF toks (some .SemiColon) p3) fun _ p4 =>
              bindAst (parseF toks f .forIncrement p4) fun inc p5 =>
                bindTok (consumeF toks (some .RightParen) p5) fun _ p6 =>
                  bindAst (parseF toks f .statement p6) fun s p7 =>
                    some (.ok (.ast (.Block [ini,
                      .While c (.Block [s, inc])])), p7)
    | .forInit =>
      match tokenF toks pos with
      | none => some (.error .CouldNotReadToken, pos)
      | some (.SemiColon, p1) => some (.ok (.ast .Nil), p1)
      | some (.Var, p1) => parseF toks f .varDeclaration p1
      | some (_, p1) => parseF toks f .expressionStmt (backW p1)
    | .forCondition =>
      match tokenF toks pos with
      | none => some (.error .CouldNotReadToken, pos)
      | some (.SemiColon, p1) => some (.ok (.ast .True), backW p1)
      | some (_, p1) => parseF toks f .expression (backW p1)
    | .forIncrement =>
      match tokenF toks pos with
      | none => some (.error .CouldNotReadToken, pos)
      | some (.RightParen, p1) => some (.ok (.ast .Nil), backW p1)
      | some (_, p1) => parseF toks f .expression (backW p1)
    | .ifStatement =>
      bindTok (consumeF toks (some .LeftParen) pos) fun _ p1 =>
        bindAst (parseF toks f .expression p1) fun c p2 =>
          bindTok (consumeF toks (some .RightParen) p2) fun _ p3 =>
            bindAst (parseF toks f .statement p3) fun thenS p4 =>
              match tokenF toks p4 with
              | none => some (.ok (.ast (.If c thenS .Nil)), p4)
              | some (.Else, p5) =>
                bindAst (parseF toks f .statement p5) fun elseS p6 =>
                  some (.ok (.ast (.If c thenS elseS)), p6)
              | some (_, p5) => some (.ok (.ast (.If c thenS .Nil)), backW p5)
    | .printStatement =>
      bindAst (parseF toks f .expression pos) fun e p1 =>
        bindTok (consumeF toks (some .SemiColon) p1) fun _ p2 =>
          some (.ok (.ast (.Print e)), p2)
    | .blockStatement acc =>
      match tokenF toks pos with
      | none => some (.error .CouldNotReadToken, pos)
      | some (.RightBrace, p1) =>
        bindTok (consumeF toks (some .RightBrace) (backW p1)) fun _ p2 =>
          some (.ok (.ast (.Block acc)), p2)
      | some (_, p1) =>
        bindAst (parseF toks f .declaration (backW p1)) fun d p2 =>
          parseF toks f (.blockStatement (acc ++ [d])) p2
    | .expressionStmt =>
      bindAst (parseF toks f .expression pos) fun e p1 =>
        bindTok (consumeF toks (some .SemiColon) p1) fun _ p2 =>
          some (.ok (.ast e), p2)
    | .expression => parseF toks f .assignment pos
    | .assignment =>
      bindAst (parseF toks f .orParse pos) fun e p1 =>
        match tokenF toks p1 with
        | none => some (.error .CouldNotReadToken, p1)
        | some (.Equal, p2) =>
          match e with
          | .Identifier i =>
            bindAst (parseF toks f .assignment p2) fun r p3 =>
              some (.ok (.ast (.Assign i r)), p3)
          | _ => some (.error (.NotFoundAstType "Identifier"), p2)
        | some (_, p2) => some (.ok (.ast e), backW p2)
    | .orParse =>
      bindAst (parseF toks f .andParse pos) fun e p1 =>
        parseF toks f (.orLoop e) p1
    | .orLoop e =>
      match tokenF toks pos with
      | none => some (.error .CouldNotReadToken, pos)
      | some (.Or, p1) =>
        bindAst (parseF toks f .andParse p1) fun r p2 =>
          parseF toks f (.orLoop (.Or e r)) p2
      | some (_, p1) => some (.ok (.ast e), backW p1)
    | .andParse =>
      bindAst (parseF toks f .equality pos) fun e p1 =>
        parseF toks f (.andLoop e) p1
    | .andLoop e =>
      match tokenF toks pos with
      | none => some (.error .CouldNotReadToken, pos)
      | some (.And, p1) =>
        bindAst (parseF toks f .equality p1) fun r p2 =>
          parseF toks f (.andLoop (.And e r)) p2
      | some (_, p1) => some (.ok (.ast e), backW p1)
    | .equality =>
      bindAst (parseF toks f .comparison pos) fun e p1 =>
        parseF toks f (.equalityLoop e) p1
    | .equalityLoop e =>
      match tokenF toks pos with
      | none => some (.ok (.ast e), pos)
      | some (.BangEqual, p1) =>
        bindAst (parseF toks f .comparison p1) fun r p2 =>
          parseF toks f (.equalityLoop (.BangEqual e r)) p2
      | some (.EqualEqual, p1) =>
        bindAst (parseF toks f .comparison p1) fun r p2 =>
          parseF toks f (.equalityLoop (.EqualEqual e r)) p2
      | some (_, p1) => some (.ok (.ast e), backW p1)
    | .comparison =>
      bindAst (parseF toks f .term pos) fun e p1 =>
        parseF toks f (.comparisonLoop e) p1
    | .comparisonLoop e =>
      match tokenF toks pos with
      | none => some (.ok (.ast e), pos)
      | some (.Greater, p1) =>
        bindAst (parseF toks f .term p1) fun r p2 =>
          parseF toks f (.comparisonLoop (.Greater e r)) p2
      | some (.GreaterEqual, p1) =>
        bindAst (parseF toks f .term p1) fun r p2 =>
          parseF toks f (.comparisonLoop (.GreaterEqual e r)) p2
      | some (.Less, p1) =>
        bindAst (parseF toks f .term p1) fun r p2 =>
          parseF toks f (.comparisonLoop (.Less e r)) p2
      | some (.LessEqual, p1) =>
        bindAst (parseF toks f .term p1) fun r p2 =>
          parseF toks f (.comparisonLoop (.LessEqual e r)) p2
      | some (_, p1) => some (.ok (.ast e), backW p1)
    | .term =>
      bindAst (parseF toks f .factor pos) fun e p1 =>
        parseF toks f (.termLoop e) p1
    | .termLoop e =>
      match tokenF toks pos with
      | none => some (.ok (.ast e), pos)
      | some (.Minus, p1) =>
        bindAst (parseF toks f .factor p1) fun r p2 =>
          parseF toks f (.termLoop (.Minus e r)) p2
      | some (.Plus, p1) =>
        bindAst (parseF toks f .factor p1) fun r p2 =>
          parseF toks f (.termLoop (.Plus e r)) p2
      | some (_, p1) => some (.ok (.ast e), backW p1)
    | .factor =>
      bindAst (parseF toks f .unary pos) fun e p1 =>
        parseF toks f (.factorLoop e) p1
    | .factorLoop e =>
      match tokenF toks pos with
      | none => some (.ok (.ast e), pos)
      | some (.Slash, p1) =>
        bindAst (parseF toks f .unary p1) fun r p2 =>
          parseF toks f (.factorLoop (.Div e r)) p2
      | some (.Star, p1) =>
        bindAst (parseF toks f .unary p1) fun r p2 =>
          parseF toks f (.factorLoop (.Mul e r)) p2
      | some (_, p1) => some (.ok (.ast e), backW p1)
    | .unary =>
      match tokenF toks pos with
      | none => some (.error .CouldNotReadToken, pos)
      | some (.Bang, p1) =>
        bindAst (parseF toks f .unary p1) fun u p2 =>
          some (.ok (.ast (.Bang u)), p2)
      | some (.Minus, p1) =>
        bindAst (parseF toks f .unary p1) fun u p2 =>
          some (.ok (.ast (.UnaryMinus u)), p2)
      | some (_, p1) => parseF toks f .call (backW p1)
    | .call =>
      bindAst (parseF toks f .primary pos) fun e p1 =>
        match tokenF toks p1 with
        | none => some (.error .CouldNotReadToken, p1)
        | some (.LeftParen, p2) =>
          bindList (parseF toks f (.arguments []) p2) fun args p3 =>
            match e with
            | .Identifier i => some (.ok (.ast (.Call i args)), p3)
            | _ => some (.error (.NotFoundAstType "Identifier"), p3)
        | some (_, p2) => some (.ok (.ast e), backW p2)
    | .arguments acc =>
      match tokenF toks pos with
      | none => some (.error .CouldNotReadToken, pos)
      | some (.RightParen, p1) =>
        bindTok (consumeF toks (some .RightParen) (backW p1)) fun _ p2 =>
          some (.ok (.list acc), p2)
      | some (.Comma, p1) => parseF toks f (.arguments acc) p1
      | some (_, p1) =>
        match parseF toks f .expression (backW p1) with
        | none => none
        | some (.ok (.ast a), p2) =>
          if (acc ++ [a]).length ≥ 255 then
            bindTok (consumeF toks (some .RightParen) p2) fun _ p3 =>
              some (.ok (.list (acc ++ [a])), p3)
          else parseF toks f (.arguments (acc ++ [a])) p2
        | some (.ok _, p2) => some (.error .CouldNotReadToken, p2)
        | some (.error _, p2) =>
          if acc.length ≥ 255 then
            bindTok (consumeF toks (some .RightParen) p2) fun _ p3 =>
              some (.ok (.list acc), p3)
          else parseF toks f (.arguments acc) p2
    | .primary =>
      match tokenF toks pos with
      | none => some (.error .CouldNotReadToken, pos)
      | some (t, p1) =>
        match t with
        | .Number n => some (.ok (.ast (.Number n)), p1)
        | .String s => some (.ok (.ast (.String s)), p1)
        | .True => some (.ok (.ast .True), p1)
        | .False => some (.ok (.ast .False), p1)
        | .Nil => some (.ok (.ast .Nil), p1)
        | .LeftParen =>
          bindAst (parseF toks f .expression p1) fun e p2 =>
            bindTok (consumeF toks (some .RightParen) p2) fun _ p3 =>
              some (.ok (.ast (.Grouping e)), p3)
        | .Identifier i => some (.ok (.ast (.Identifier i)), p1)
        | _ => some (.error (.NotSupportToken (Tok.fmt t)), p1)
    | .programLoop acc =>
      match parseF toks f .declaration pos with
      | none => none
      | some (.ok (.ast a), p1) =>
        if endP toks p1 then some (.ok (.list (acc ++ [a])), p1)
        else parseF toks f (.programLoop (acc ++ [a])) p1
      | some (.ok _, p1) => some (.error .CouldNotReadToken, p1)
      | some (.error _, p1) =>
        match parseF toks f .synchronizeLoop (backW p1) with
        | none => none
        | some (_, p2) =>
          if endP toks p2 then some (.ok (.list acc), p2)
          else parseF toks f (.programLoop acc) p2
    | .synchronizeLoop =>
      if endP toks pos then some (.ok .unit, pos)
      else
        match tokenF toks pos with
        | none => some (.ok .unit, pos)
        | some (t, p1) =>
          match t with
          | .SemiColon => some (.ok .unit, p1)
          | .Class | .For | .Fun | .If | .Print | .Var | .Return | .While =>
            some (.ok .unit, backW p1)
          | _ => parseF toks f .synchronizeLoop p1

/-- Parser::program — runs the top-level recovery loop from read position 0
and yields the statement list; none when the fuel ran out. -/
def programF (fuel : Nat) (toks : List Tok) : Option (List AstType) :=
  match parseF toks fuel (.programLoop []) 0 with
  | some (.ok (.list l), _) => some l
  | _ => none

/-! ## Environment (src/environment.rs) -/

/-- Mirrors enum Value of src/environment.rs.  The fn payload of
EmbeddedFunc is modelled by the lines the host function prints when called
(the only registered one, clock, prints a fixed line). -/
inductive Value where
  | F64 (n : Rat)
  | String (s : Str)
  | Bool (b : Bool)
  | UserFunc (args : List AstType) (body : AstType)
  | EmbeddedFunc (output : List Str)

/-- Mirrors struct Environment: a HashMap scope (modelled as a one-entry-
per-key association list; the source field is named variables, which is a
reserved word here) plus an optional enclosing scope. -/
inductive Environment where
  | mk (enclosing : Option Environment) (vars : List (Str × Value))

def Environment.enclosing : Environment → Option Environment
  | .mk e _ => e

def Environment.vars : Environment → List (Str × Value)
  | .mk _ v => v

/-- HashMap::get on the scope map. -/
def mapGet : List (Str × Value) → Str → Option Value
  | [], _ => none
  | (k1, v1) :: rest, key => if k1 = key then some v1 else mapGet rest key

/-- HashMap::insert on the scope map: replaces an existing entry for the
key, otherwise adds one. -/
def mapInsert : List (Str × Value) → Str → Value → List (Str × Value)
  | [], key, value => [(key, value)]
  | (k1, v1) :: rest, key, value =>
    if k1 = key then (key, value) :: rest
    else (k1, v1) :: mapInsert rest key value

/-- Environment::new. -/
def Environment.new : Environment := .mk none []

/-- Environment::with_enclosing. -/
def Environment.with_enclosing (enclosing : Environment) : Environment :=
  .mk (some enclosing) []

/-- Environment::define — unconditionally insert into the current scope
(the Option return value of HashMap::insert is dropped by every caller). -/
def Environment.define (env : Environment) (key : Str) (value : Value) :
    Environment :=
  .mk env.enclosing (mapInsert env.vars key value)

/-- Environment::push — overwrite the nearest scope that already binds the
key; a miss at the outermost scope is a silent no-op returning None. -/
def Environment.push : Environment → Str → Value → Environment
  | .mk none vars, key, value =>
    match mapGet vars key with
    | some _ => .mk none (mapInsert vars key value)
    | none => .mk none vars
  | .mk (some e) vars, key, value =>
    match mapGet vars key with
    | some _ => .mk (some e) (mapInsert vars key value)
    | none => .mk (some (e.push key value)) vars

/-- Environment::get — the source unwraps self.enclosing before recursing,
so a key missing from the current scope of the outermost environment makes
the unwrap panic (the error case); a found binding is ok (some v), and
ok none is unreachable. -/
def Environment.get : Environment → Str → Except Unit (Option Value)
  | .mk none vars, key =>
    match mapGet vars key with
    | some v => .ok (some v)
    | none => .error ()
  | .mk (some e) vars, key =>
    match mapGet vars key with
    | some v => .ok (some v)
    | none => e.get key

/-- register_func of src/embedded/func.rs: binds clock, whose body prints
one fixed line. -/
def register_func (env : Environment) : Environment :=
  env.define "clock" (.EmbeddedFunc ["called clock"])

/-! ## Evaluator (src/eval.rs) -/

/-- Mirrors enum ReturnType of src/eval.rs (Operand is an alias for it). -/
inductive ReturnType where
  | Bool (b : Bool)
  | F64 (n : Rat)
  | Void
  | String (s : Str)
  | Return (r : ReturnType)

abbrev Operand := ReturnType

/-- Mirrors enum RuntimeError of src/eval.rs. -/
inductive RuntimeError where
  | OperandType (o : Operand)
  | TwoOperandType (l r : Operand)
  | NotFoundVar (v : Str)
  | NotFoundFunc (v : Str)
  | NotMatchArgsNum

/-- one_type_check_string — looks through any depth of Return wrappers. -/
def one_type_check_string : Operand → Bool
  | .Return o => one_type_check_string o
  | .String _ => true
  | _ => false

def one_type_check_f64 : Operand → Bool
  | .Return o => one_type_check_f64 o
  | .F64 _ => true
  | _ => false

def one_type_check_bool : Operand → Bool
  | .Return o => one_type_check_bool o
  | .Bool _ => true
  | _ => false

def one_type_check_void : Operand → Bool
  | .Return o => one_type_check_void o
  | .Void => true
  | _ => false

def type_check_string (l r : Operand) : Bool :=
  one_type_check_string l && one_type_check_string r

def type_check_f64 (l r : Operand) : Bool :=
  one_type_check_f64 l && one_type_check_f64 r

def type_check_bool (l r : Operand) : Bool :=
  one_type_check_bool l && one_type_check_bool r

/-- downcast_string — unlike the type checks, looks through only one
Return wrapper; none models the panic branch. -/
def downcast_string : Operand → Option Str
  | .String s => some s
  | .Return o =>
    match o with
    | .String s => some s
    | _ => none
  | _ => none

def downcast_f64 : Operand → Option Rat
  | .F64 n => some n
  | .Return o =>
    match o with
    | .F64 n => some n
    | _ => none
  | _ => none

def downcast_bool : Operand → Option Bool
  | .Bool b => some b
  | .Return o =>
    match o with
    | .Bool b => some b
    | _ => none
  | _ => none

/-- Outcome of evaluating one node: a value, a runtime error, or a Rust
panic (unwrap / downcast failure). -/
inductive EvalOut where
  | ok (v : ReturnType)
  | err (e : RuntimeError)
  | panicked

/-- fn plus. -/
def plus (left right : Operand) : EvalOut :=
  if type_check_f64 left right then
    match downcast_f64 left, downcast_f64 right with
    | some a, some b => .ok (.F64 (a + b))
    | _, _ => .panicked
  else if type_check_string left right then
    match downcast_string left, downcast_string right with
    | some a, some b => .ok (.String (a ++ b))
    | _, _ => .panicked
  else .err (.TwoOperandType left right)

/-- fn minus. -/
def minus (left right : Operand) : EvalOut :=
  if type_check_f64 left right then
    match downcast_f64 left, downcast_f64 right with
    | some a, some b => .ok (.F64 (a - b))
    | _, _ => .panicked
  else .err (.TwoOperandType left right)

/-- fn mul. -/
def mul (left right : Operand) : EvalOut :=
  if type_check_f64 left right then
    match downcast_f64 left, downcast_f64 right with
    | some a, some b => .ok (.F64 (a * b))
    | _, _ => .panicked
  else .err (.TwoOperandType left right)

/-- fn div. -/
def div (left right : Operand) : EvalOut :=
  if type_check_f64 left right then
    match downcast_f64 left, downcast_f64 right with
    | some a, some b => .ok (.F64 (a / b))
    | _, _ => .panicked
  else .err (.TwoOperandType left right)

/-- fn unary_minus. -/
def unary_minus (operand : Operand) : EvalOut :=
  if one_type_check_f64 operand then
    match downcast_f64 operand with
    | some a => .ok (.F64 (-a))
    | none => .panicked
  else .err (.OperandType operand)

/-- fn bang. -/
def bang (operand : Operand) : EvalOut :=
  if one_type_check_bool operand then
    match downcast_bool operand with
    | some b => .ok (.Bool (!b))
    | none => .panicked
  else if one_type_check_void operand then .ok (.Bool true)
  else .ok (.Bool false)

/-- fn equal_equal. -/
def equal_equal (left right : Operand) : EvalOut :=
  if type_check_f64 left right then
    match downcast_f64 left, downcast_f64 right with
    | some a, some b => .ok (.Bool (a = b))
    | _, _ => .panicked
  else if type_check_string left right then
    match downcast_string left, downcast_string right with
    | some a, some b => .ok (.Bool (a = b))
    | _, _ => .panicked
  else if type_check_bool left right then
    match downcast_bool left, downcast_bool right with
    | some a, some b => .ok (.Bool (a = b))
    | _, _ => .panicked
  else .err (.TwoOperandType left right)

/-- fn bang_equal — negates equal_equal, forwarding its failure. -/
def bang_equal (left right : Operand) : EvalOut :=
  match equal_equal left right with
  | .ok (.Bool b) => .ok (.Bool (!b))
  | .ok other => .err (.OperandType other)
  | .err e => .err e
  | .panicked => .panicked

/-- fn greater (bool pairs use left AND NOT right as in the source). -/
def greater (left right : Operand) : EvalOut :=
  if type_check_f64 left right then
    match downcast_f64 left, downcast_f64 right with
    | some a, some b => .ok (.Bool (b < a))
    | _, _ => .panicked
  else if type_check_string left right then
    match downcast_string left, downcast_string right with
    | some a, some b => .ok (.Bool (b < a))
    | _, _ => .panicked
  else if type_check_bool left right then
    match downcast_bool left, downcast_bool right with
    | some a, some b => .ok (.Bool (a && !b))
    | _, _ => .panicked
  else .err (.TwoOperandType left right)

/-- fn greater_equal. -/
def greater_equal (left right : Operand) : EvalOut :=
  if type_check_f64 left right then
    match downcast_f64 left, downcast_f64 right with
    | some a, some b => .ok (.Bool (b ≤ a))
    | _, _ => .panicked
  else if type_check_string left right then
    match downcast_string left, downcast_string right with
    | some a, some b => .ok (.Bool (!(a < b)))
    | _, _ => .panicked
  else if type_check_bool left right then
    match downcast_bool left, downcast_bool right with
    | some a, some b => .ok (.Bool (a || !b))
    | _, _ => .panicked
  else .err (.TwoOperandType left right)

/-- fn less. -/
def less (left right : Operand) : EvalOut :=
  if type_check_f64 left right then
    match downcast_f64 left, downcast_f64 right with
    | some a, some b => .ok (.Bool (a < b))
    | _, _ => .panicked
  else if type_check_string left right then
    match downcast_string left, downcast_string right with
    | some a, some b => .ok (.Bool (a < b))
    | _, _ => .panicked
  else if type_check_bool left right then
    match downcast_bool left, downcast_bool right with
    | some a, some b => .ok (.Bool (!a && b))
    | _, _ => .panicked
  else .err (.TwoOperandType left right)

/-- fn less_equal. -/
def less_equal (left right : Operand) : EvalOut :=
  if type_check_f64 left right then
    match downcast_f64 left, downcast_f64 right with
    | some a, some b => .ok (.Bool (a ≤ b))
    | _, _ => .panicked
  else if type_check_string left right then
    match downcast_string left, downcast_string right with
    | some a, some b => .ok (.Bool (!(b < a)))
    | _, _ => .panicked
  else if type_check_bool left right then
    match downcast_bool left, downcast_bool right with
    | some a, some b => .ok (.Bool (!a || b))
    | _, _ => .panicked
  else .err (.TwoOperandType left right)

/-- fn or_eval — both operands were already evaluated by the caller. -/
def or_eval (left right : Operand) : EvalOut :=
  if type_check_bool left right then
    match downcast_bool left, downcast_bool right with
    | some a, some b => .ok (.Bool (a || b))
    | _, _ => .panicked
  else .err (.TwoOperandType left right)

/-- fn and_eval. -/
def and_eval (left right : Operand) : EvalOut :=
  if type_check_bool left right then
    match downcast_bool left, downcast_bool right with
    | some a, some b => .ok (.Bool (a && b))
    | _, _ => .panicked
  else .err (.TwoOperandType left right)

/-- fn to_env_value — note: a Void (or function-valued) operand falls to
the bool branch whose downcast panics; Value has no nil variant. -/
def to_env_value (operand : Operand) : Option Value :=
  if one_type_check_string operand then (downcast_string operand).map .String
  else if one_type_check_f64 operand then (downcast_f64 operand).map .F64
  else (downcast_bool operand).map .Bool

/-- fn print of src/eval.rs: the lines written for one evaluated result
(none models a downcast panic; a non-printable result writes nothing). -/
def printLines (result : Operand) : Option (List Str) :=
  if one_type_check_f64 result then (downcast_f64 result).map fun a => [toString a]
  else if one_type_check_string result then (downcast_string result).map fun s => [s]
  else if one_type_check_bool result then (downcast_bool result).map fun b => [toString b]
  else some []

def operand_type (o : Operand) : Option Str :=
  if one_type_check_string o then some "String"
  else if one_type_check_f64 o then some "f64"
  else if one_type_check_bool o then some "bool"
  else none

def quoteStr (s : Str) : Str := "\"" ++ s ++ "\""

def fmtOptStr : Option Str → Str
  | some s => "Some(" ++ quoteStr s ++ ")"
  | none => "None"

/-- RuntimeError::print — the rendered error description. -/
def RuntimeError.render : RuntimeError → Str
  | .OperandType o => "invalid type: " ++ fmtOptStr (operand_type o)
  | .TwoOperandType l r =>
    "invalid type: left=" ++ fmtOptStr (operand_type l) ++
      " right=" ++ fmtOptStr (operand_type r)
  | .NotFoundVar v => "Could not found variable: " ++ quoteStr v
  | .NotFoundFunc v => "Could not found function: " ++ quoteStr v
  | .NotMatchArgsNum => "Could not match Argument Length"

/-- One continuation point of fn eval: a single node, the statement loop
of fn block (carrying the running ret value), the argument-evaluation loop
of fn call_eval, or the body run of fn call_func. -/
inductive EK where
  | expr (a : AstType)
  | seq (stmts : List AstType) (last : EvalOut)
  | argsEv (args : List AstType) (acc : List Operand)
  | callUser (body : AstType) (params : List AstType) (vals : List Operand)

/-- Result of one evaluation continuation: a node outcome or (for the
argument loop) the collected argument values. -/
inductive StepOut where
  | v (o : EvalOut)
  | vs (l : List Operand)

/-- Evaluation result: outcome, final environment, printed lines; none
means the fuel ran out. -/
abbrev StepRes := Option (StepOut × Environment × List Str)

/-- Prefix previously collected output lines onto a result. -/
def withOut (o : List Str) (r : StepRes) : StepRes :=
  match r with
  | none => none
  | some (x, e, o2) => some (x, e, o ++ o2)

/-- Sequencing for the question-mark operator on eval results: continue on
ok, short-circuit errors, panics and fuel exhaustion.  The vs branch is
unreachable for expression continuations. -/
def contV (r : StepRes) (k : ReturnType → Environment → StepRes) : StepRes :=
  match r with
  | none => none
  | some (.v (.ok v), e, o) => withOut o (k v e)
  | some (.v x, e, o) => some (.v x, e, o)
  | some (.vs _, e, o) => some (.v .panicked, e, o)

/-- The parameter-binding for_each of fn call_func: binds each Identifier
parameter to the converted argument value (the conversion is the inlined
body of to_env_value); non-Identifier parameters are skipped; none models
a downcast panic. -/
def bindParams : List (AstType × Operand) → Environment → Option Environment
  | [], benv => some benv
  | (p, v) :: rest, benv =>
    match p with
    | .Identifier key =>
      match to_env_value v with
      | some val => bindParams rest (benv.define key val)
      | none => none
    | _ => bindParams rest benv

/-- fn eval of src/eval.rs together with its statement/argument loops.
Fuel decreases on every recursive entry; everything else (evaluation
order, environment cloning and fold-back, the Return signal, panics)
follows the source line by line. -/
def evalK : Nat → EK → Environment → StepRes
  | 0, _, _ => none
  | f + 1, k, env =>
    match k with
    | .expr a =>
      match a with
      | .True => some (.v (.ok (.Bool true)), env, [])
      | .False => some (.v (.ok (.Bool false)), env, [])
      | .Nil => some (.v (.ok .Void), env, [])
      | .Number n => some (.v (.ok (.F64 n)), env, [])
      | .String s => some (.v (.ok (.String s)), env, [])
      | .Bang o =>
        contV (evalK f (.expr o) env) fun v e => some (.v (bang v), e, [])
      | .UnaryMinus o =>
        contV (evalK f (.expr o) env) fun v e =>
          some (.v (unary_minus v), e, [])
      | .Plus l r =>
        contV (evalK f (.expr l) env) fun lv e1 =>
          contV (evalK f (.expr r) e1) fun rv e2 =>
            some (.v (plus lv rv), e2, [])
      | .Minus l r =>
        contV (evalK f (.expr l) env) fun lv e1 =>
          contV (evalK f (.expr r) e1) fun rv e2 =>
            some (.v (minus lv rv), e2, [])
      | .Mul l r =>
        contV (evalK f (.expr l) env) fun lv e1 =>
          contV (evalK f (.expr r) e1) fun rv e2 =>
            some (.v (mul lv rv), e2, [])
      | .Div l r =>
        contV (evalK f (.expr l) env) fun lv e1 =>
          contV (evalK f (.expr r) e1) fun rv e2 =>
            some (.v (div lv rv), e2, [])
      | .EqualEqual l r =>
        contV (evalK f (.expr l) env) fun lv e1 =>
          contV (evalK f (.expr r) e1) fun rv e2 =>
            some (.v (equal_equal lv rv), e2, [])
      | .BangEqual l r =>
        contV (evalK f (.expr l) env) fun lv e1 =>
          contV (evalK f (.expr r) e1) fun rv e2 =>
            some (.v (bang_equal lv rv), e2, [])
      | .Greater l r =>
        contV (evalK f (.expr l) env) fun lv e1 =>
          contV (evalK f (.expr r) e1) fun rv e2 =>
            some (.v (greater lv rv), e2, [])
      | .Less l r =>
        contV (evalK f (.expr l) env) fun lv e1 =>
          contV (evalK f (.expr r) e1) fun rv e2 =>
            some (.v (less lv rv), e2, [])
      | .GreaterEqual l r =>
        contV (evalK f (.expr l) env) fun lv e1 =>
          contV (evalK f (.expr r) e1) fun rv e2 =>
            some (.v (greater_equal lv rv), e2, [])
      | .LessEqual l r =>
        contV (evalK f (.expr l) env) fun lv e1 =>
          contV (evalK f (.expr r) e1) fun rv e2 =>
            some (.v (less_equal lv rv), e2, [])
      | .Or l r =>
        contV (evalK f (.expr l) env) fun lv e1 =>
          contV (evalK f (.expr r) e1) fun rv e2 =>
            some (.v (or_eval lv rv), e2, [])
      | .And l r =>
        contV (evalK f (.expr l) env) fun lv e1 =>
          contV (evalK f (.expr r) e1) fun rv e2 =>
            some (.v (and_eval lv rv), e2, [])
      | .Print o =>
        contV (evalK f (.expr o) env) fun v e =>
          match printLines v with
          | some ls => some (.v (.ok .Void), e, ls)
          | none => some (.v .panicked, e, [])
      | .Var i o =>
        contV (evalK f (.expr o) env) fun v e =>
          match to_env_value v with
          | some val => some (.v (.ok .Void), e.define i val, [])
          | none => some (.v .panicked, e, [])
      | .Identifier i =>
        (match env.get i with
         | .error _ => some (.v .panicked, env, [])
         | .ok none => some (.v (.err (.NotFoundVar i)), env, [])
         | .ok (some val) =>
           match val with
           | .F64 n => some (.v (.ok (.F64 n)), env, [])
           | .String s => some (.v (.ok (.String s)), env, [])
           | .Bool b => some (.v (.ok (.Bool b)), env, [])
           | _ => some (.v (.err (.NotFoundVar i)), env, []))
      | .Assign i o =>
        contV (evalK f (.expr o) env) fun v e =>
          match e.get i with
          | .error _ => some (.v .panicked, e, [])
          | .ok none => some (.v (.err (.NotFoundVar i)), e, [])
          | .ok (some _) =>
            match to_env_value v with
            | some val => some (.v (.ok .Void), e.push i val, [])
            | none => some (.v .panicked, e, [])
      | .Grouping o => evalK f (.expr o) env
      | .Block stmts =>
        (match evalK f (.seq stmts (.ok .Void)) (Environment.with_enclosing env) with
         | none => none
         | some (.v .panicked, e, o) => some (.v .panicked, e, o)
         | some (.v r, e, o) =>
           match e.enclosing with
           | some parent => some (.v r, parent, o)
           | none => some (.v .panicked, e, o)
         | some (.vs _, e, o) => some (.v .panicked, e, o))
      | .If c t el =>
        contV (evalK f (.expr c) env) fun v e =>
          match downcast_bool v with
          | none => some (.v .panicked, e, [])
          | some true => evalK f (.expr t) e
          | some false => evalK f (.expr el) e
      | .While c s =>
        contV (evalK f (.expr c) env) fun v e1 =>
          match downcast_bool v with
          | none => some (.v .panicked, e1, [])
          | some false => some (.v (.ok .Void), e1, [])
          | some true =>
            match evalK f (.expr s) e1 with
            | none => none
            | some (.v (.ok _), e2, o2) =>
              withOut o2 (evalK f (.expr (.While c s)) e2)
            | some (.v x, e2, o2) => some (.v x, e2, o2)
            | some (.vs _, e2, o2) => some (.v .panicked, e2, o2)
      | .Call callee args =>
        (match evalK f (.argsEv args []) env with
         | none => none
         | some (.vs vals, e, o) =>
           (match e.get callee with
            | .error _ => some (.v .panicked, e, o)
            | .ok none => some (.v (.err (.NotFoundFunc callee)), e, o)
            | .ok (some (.UserFunc params body)) =>
              withOut o (evalK f (.callUser body params vals) e)
            | .ok (some (.EmbeddedFunc ls)) =>
              some (.v (.ok .Void), e, o ++ ls)
            | .ok (some _) => some (.v (.err (.NotFoundFunc callee)), e, o))
         | some (.v x, e, o) => some (.v x, e, o))
      | .Fun name args body =>
        some (.v (.ok .Void), env.define name (.UserFunc args body), [])
      | .Return o =>
        contV (evalK f (.expr o) env) fun v e =>
          some (.v (.ok (.Return v)), e, [])
    | .seq stmts last =>
      match stmts with
      | [] => some (.v last, env, [])
      | s :: rest =>
        match evalK f (.expr s) env with
        | none => none
        | some (.v .panicked, e, o) => some (.v .panicked, e, o)
        | some (.v (.ok (.Return v)), e, o) =>
          some (.v (.ok (.Return v)), e, o)
        | some (.v r, e, o) => withOut o (evalK f (.seq rest r) e)
        | some (.vs _, e, o) => some (.v .panicked, e, o)
    | .argsEv args acc =>
      match args with
      | [] => some (.vs acc, env, [])
      | a :: rest =>
        match evalK f (.expr a) env with
        | none => none
        | some (.v (.ok v), e, o) =>
          withOut o (evalK f (.argsEv rest (acc ++ [v])) e)
        | some (.v _, e, o) => some (.v .panicked, e, o)
        | some (.vs _, e, o) => some (.v .panicked, e, o)
    | .callUser body params vals =>
      if params.length ≠ vals.length then
        some (.v (.err .NotMatchArgsNum), env, [])
      else
        match bindParams (params.zip vals) (Environment.with_enclosing env) with
        | none => some (.v .panicked, env, [])
        | some benv =>
          match evalK f (.expr body) benv with
          | none => none
          | some (.v .panicked, e, o) => some (.v .panicked, e, o)
          | some (.v (.err er), _, o) => some (.v (.err er), env, o)
          | some (.v (.ok res), e, o) =>
            (match e.enclosing with
             | some parent => some (.v (.ok res), parent, o)
             | none => some (.v .panicked, e, o))
          | some (.vs _, e, o) => some (.v .panicked, e, o)

/-- One top-level statement of fn run_script (src/main.rs): evaluate, then
either echo the rendered result (fn print of eval.rs) or print the
rendered error; the outcome, final environment and every line written are
returned. -/
def runStmt (fuel : Nat) (a : AstType) (env : Environment) :
    Option (EvalOut × Environment × List Str) :=
  match evalK fuel (.expr a) env with
  | none => none
  | some (.v (.ok r), e, o) =>
    (match printLines r with
     | some ls => some (.ok r, e, o ++ ls)
     | none => some (.panicked, e, o))
  | some (.v (.err er), e, o) => some (.err er, e, o ++ [er.render])
  | some (.v .panicked, e, o) => some (.panicked, e, o)
  | some (.vs _, e, o) => some (.panicked, e, o)

/-! ## Derived notions used by the statements -/

/-- Whether some scope of the chain binds the name (the search order of
Environment::get). -/
def boundAnywhere : Environment → Str → Bool
  | .mk none vars, key => (mapGet vars key).isSome
  | .mk (some e) vars, key => (mapGet vars key).isSome || boundAnywhere e key

/-- The non-callable Value variants (numbers, strings, booleans). -/
def isScalar : Value → Bool
  | .F64 _ => true
  | .String _ => true
  | .Bool _ => true
  | _ => false

/-- Token sequence of an n-entry comma-separated identifier list. -/
def argSeq : Nat → List Tok
  | 0 => []
  | 1 => [Tok.Identifier "a"]
  | n + 2 => Tok.Identifier "a" :: Tok.Comma :: argSeq (n + 1)

/-- Token sequence of the call statement f(a, ..., a); with n arguments. -/
def callToks (n : Nat) : List Tok :=
  Tok.Identifier "f" :: Tok.LeftParen :: argSeq n ++
    [Tok.RightParen, Tok.SemiColon, Tok.Eof]

/-- Token sequence of the declaration fun g(a, ..., a) with n parameters
and an empty body, as seen by fun_declaration (after the fun keyword). -/
def funToks (n : Nat) : List Tok :=
  Tok.Identifier "g" :: Tok.LeftParen :: argSeq n ++
    [Tok.RightParen, Tok.LeftBrace, Tok.RightBrace, Tok.Eof]

/-! ## Helper lemmas -/

/-- A name bound in no reachable scope makes Environment::get panic (the
unwrap of the absent enclosing scope at the end of the chain). -/
theorem get_unbound :
    ∀ (env : Environment) (key : Str), boundAnywhere env key = false →
      Environment.get env key = .error ()
  | .mk none vars, key, h => by
    unfold boundAnywhere at h
    unfold Environment.get
    cases hm : mapGet vars key with
    | some v => rw [hm] at h; simp at h
    | none => rfl
  | .mk (some e) vars, key, h => by
    unfold boundAnywhere at h
    unfold Environment.get
    rw [Bool.or_eq_false_iff] at h
    cases hm : mapGet vars key with
    | some v => rw [hm] at h; simp at h
    | none => exact get_unbound e key h.2

theorem mapGet_mapInsert_self (vars : List (Str × Value)) (k : Str)
    (v : Value) : mapGet (mapInsert vars k v) k = some v := by
  induction vars with
  | nil => simp [mapInsert, mapGet]
  | cons p rest ih =>
    by_cases hk : p.1 = k
    · simp [mapInsert, mapGet, hk]
    · simp [mapInsert, mapGet, hk, ih]

theorem mapGet_mapInsert_ne (vars : List (Str × Value)) (k z : Str)
    (v : Value) (h : k ≠ z) :
    mapGet (mapInsert vars k v) z = mapGet vars z := by
  induction vars with
  | nil => simp [mapInsert, mapGet, h]
  | cons p rest ih =>
    by_cases hk : p.1 = k
    · simp [mapInsert, mapGet, hk, h]
    · simp only [mapInsert, mapGet, if_neg hk]
      by_cases hz : p.1 = z
      · simp [hz]
      · simp [hz, ih]

/-- Environment::push overwrites exactly the nearest existing binding. -/
theorem get_push_same :
    ∀ (env : Environment) (k : Str) (v w : Value),
      Environment.get env k = .ok (some w) →
      Environment.get (env.push k v) k = .ok (some v)
  | .mk none vars, k, v, w, h => by
    unfold Environment.get at h
    unfold Environment.push
    cases hm : mapGet vars k with
    | some u => simp [Environment.get, mapGet_mapInsert_self]
    | none => rw [hm] at h; simp at h
  | .mk (some e) vars, k, v, w, h => by
    unfold Environment.get at h
    unfold Environment.push
    cases hm : mapGet vars k with
    | some u => simp [Environment.get, mapGet_mapInsert_self]
    | none =>
      rw [hm] at h
      simp only []
      unfold Environment.get
      rw [hm]
      exact get_push_same e k v w h

/-- Environment::push leaves every other name alone. -/
theorem get_push_other :
    ∀ (env : Environment) (k z : Str) (v : Value), k ≠ z →
      Environment.get (env.push k v) z = Environment.get env z
  | .mk none vars, k, z, v, h => by
    unfold Environment.push
    cases hm : mapGet vars k with
    | some u =>
      unfold Environment.get
      rw [mapGet_mapInsert_ne vars k z v h]
    | none => rfl
  | .mk (some e) vars, k, z, v, h => by
    unfold Environment.push
    cases hm : mapGet vars k with
    | some u =>
      unfold Environment.get
      rw [mapGet_mapInsert_ne vars k z v h]
    | none =>
      unfold Environment.get
      cases hz : mapGet vars z with
      | some u => rfl
      | none => exact get_push_other e k z v h

/-- Environment::push never creates a binding. -/
theorem boundAnywhere_push :
    ∀ (env : Environment) (k z : Str) (v : Value), k ≠ z →
      boundAnywhere (env.push k v) z = boundAnywhere env z
  | .mk none vars, k, z, v, h => by
    unfold Environment.push
    cases hm : mapGet vars k with
    | some u =>
      unfold boundAnywhere
      rw [mapGet_mapInsert_ne vars k z v h]
    | none => rfl
  | .mk (some e) vars, k, z, v, h => by
    unfold Environment.push
    cases hm : mapGet vars k with
    | some u =>
      unfold boundAnywhere
      rw [mapGet_mapInsert_ne vars k z v h]
    | none =>
      unfold boundAnywhere
      rw [boundAnywhere_push e k z v h]

/-- Inversion of bindTok on a successful parse. -/
theorem bindTok_ok_inv {r : Except ParseError Tok × Nat}
    {k : Tok → Nat → PResult} {x : PRes} {p : Nat}
    (h : bindTok r k = some (.ok x, p)) :
    ∃ t p1, r = (.ok t, p1) ∧ k t p1 = some (.ok x, p) := by
  rcases r with ⟨e, p1⟩
  cases e with
  | ok t => exact ⟨t, p1, rfl, h⟩
  | error e => simp [bindTok] at h

/-- Inversion of bindAst on a successful parse. -/
theorem bindAst_ok_inv {r : PResult} {k : AstType → Nat → PResult}
    {x : PRes} {p : Nat} (h : bindAst r k = some (.ok x, p)) :
    ∃ a p1, r = some (.ok (.ast a), p1) ∧ k a p1 = some (.ok x, p) := by
  match r with
  | none => simp [bindAst] at h
  | some (.ok (.ast a), p1) => exact ⟨a, p1, rfl, h⟩
  | some (.ok (.list l), p1) => simp [bindAst] at h
  | some (.ok .unit, p1) => simp [bindAst] at h
  | some (.error e, p1) => simp [bindAst] at h

/-- The parse loop of program makes no progress on the token sequence
var EOF: one full iteration (a failed declaration, back-up, synchronize)
returns to read position 0 with one unit less fuel. -/
theorem c9_step (g : Nat) :
    parseF [Tok.Var, Tok.Eof] (g + 3) (.programLoop []) 0 =
      parseF [Tok.Var, Tok.Eof] (g + 2) (.programLoop []) 0 := rfl

/-- Parser::program never completes on the token sequence var EOF, for any
fuel budget. -/
theorem c9_loop :
    ∀ fuel : Nat, parseF [Tok.Var, Tok.Eof] fuel (.programLoop []) 0 = none
  | 0 => rfl
  | 1 => rfl
  | 2 => rfl
  | g + 3 => (c9_step g).trans (c9_loop (g + 2))

/-! ## Claim theorems -/

/-- C1: the claim says an unbound name yields the NotFoundVar runtime
error at every chain depth.  The code instead panics: Environment::get
unwraps the absent enclosing scope of the outermost environment, so
reading or assigning a name bound in no reachable scope aborts the
process instead of returning NotFoundVar. -/
theorem c1_unbound_name_panics (f : Nat) (env : Environment) (key : Str)
    (n : Rat) (h : boundAnywhere env key = false) :
    Environment.get env key = .error () ∧
    evalK (f + 1) (.expr (.Identifier key)) env =
      some (.v .panicked, env, []) ∧
    evalK (f + 2) (.expr (.Assign key (.Number n))) env =
      some (.v .panicked, env, []) := by
  have hg := get_unbound env key h
  refine ⟨hg, ?_, ?_⟩
  · simp [evalK, hg]
  · simp [evalK, contV, withOut, hg]

/-- C1 witness: a concrete two-binding-free environment. -/
theorem c1_witness :
    boundAnywhere (Environment.mk none [("y", Value.Bool true)]) "x" = false ∧
    (Environment.get (Environment.mk none [("y", Value.Bool true)]) "x" =
        .error () ∧
     evalK 1 (.expr (.Identifier "x"))
        (Environment.mk none [("y", Value.Bool true)]) =
      some (.v .panicked, Environment.mk none [("y", Value.Bool true)], []) ∧
     evalK 2 (.expr (.Assign "x" (.Number 1)))
        (Environment.mk none [("y", Value.Bool true)]) =
      some (.v .panicked, Environment.mk none [("y", Value.Bool true)], [])) :=
  ⟨rfl, c1_unbound_name_panics 0 (Environment.mk none [("y", Value.Bool true)])
    "x" 1 rfl⟩

/-- C2 counterexample: with f bound to a zero-parameter function whose
body is a block ending in return 1, a caller block containing the call
f() followed by print 2 yields the still-wrapped Returning value as its
own result and never executes the print (no output), refuting both the
unwrap-at-the-boundary and the no-leak parts of the claim. -/
theorem c2_counterexample :
    evalK 20 (.expr (.Block [.Call "f" [], .Print (.Number 2)]))
        (Environment.new.define "f"
          (.UserFunc [] (.Block [.Return (.Number 1)]))) =
      some (.v (.ok (.Return (.F64 1))),
        Environment.new.define "f"
          (.UserFunc [] (.Block [.Return (.Number 1)])), []) := rfl

/-- C2 amended: a Returning signal produced by a statement stops the rest
of its block and is forwarded through enclosing blocks, but call_func
passes the body result through unchanged, so a call yields the wrapped
Returning value to the caller (where an enclosing block treats it like a
return of its own). -/
theorem c2_return_propagation :
    (∀ (f : Nat) (s : AstType) (rest : List AstType) (last : EvalOut)
        (v : ReturnType) (benv e : Environment) (o : List Str),
      evalK f (.expr s) benv = some (.v (.ok (.Return v)), e, o) →
      evalK (f + 1) (.seq (s :: rest) last) benv =
        some (.v (.ok (.Return v)), e, o)) ∧
    (∀ (f : Nat) (stmts : List AstType) (v : ReturnType)
        (env e p : Environment) (o : List Str),
      evalK f (.seq stmts (.ok .Void)) (Environment.with_enclosing env) =
        some (.v (.ok (.Return v)), e, o) →
      e.enclosing = some p →
      evalK (f + 1) (.expr (.Block stmts)) env =
        some (.v (.ok (.Return v)), p, o)) ∧
    (∀ (f : Nat) (env : Environment) (body : AstType) (r : ReturnType)
        (e p : Environment) (o : List Str),
      evalK f (.expr body) (Environment.with_enclosing env) =
        some (.v (.ok r), e, o) →
      e.enclosing = some p →
      evalK (f + 1) (.callUser body [] []) env = some (.v (.ok r), p, o)) := by
  refine ⟨?_, ?_, ?_⟩
  · intro f s rest last v benv e o h
    simp [evalK, h]
  · intro f stmts v env e p o h he
    simp [evalK, h, he]
  · intro f env body r e p o h he
    simp [evalK, bindParams, h, he]

/-- C2 witness: the third clause applied to the body block [return 1]. -/
theorem c2_witness :
    evalK 10 (.expr (.Block [.Return (.Number 1)]))
        (Environment.with_enclosing Environment.new) =
      some (.v (.ok (.Return (.F64 1))),
        Environment.mk (some Environment.new) [], []) ∧
    (Environment.mk (some Environment.new) []).enclosing =
      some Environment.new ∧
    evalK 11 (.callUser (.Block [.Return (.Number 1)]) [] [])
        Environment.new =
      some (.v (.ok (.Return (.F64 1))), Environment.new, []) :=
  ⟨rfl, rfl, c2_return_propagation.2.2 10 Environment.new
    (.Block [.Return (.Number 1)]) (.Return (.F64 1))
    (Environment.mk (some Environment.new) []) Environment.new [] rfl rfl⟩

/-- C3: the claim says var x; binds x to nil and succeeds.  The parser
does produce Var x Nil, but evaluating it panics: to_env_value has no nil
case (Value has no nil variant) and falls through to downcast_bool on the
Void marker, which panics, so an uninitialized declaration crashes
instead of binding nil. -/
theorem c3_uninit_var_panics (f : Nat) (env : Environment) :
    evalK (f + 2) (.expr (.Var "x" .Nil)) env =
      some (.v .panicked, env, []) ∧
    programF 20 [Tok.Var, Tok.Identifier "x", Tok.SemiColon, Tok.Eof] =
      some [AstType.Var "x" .Nil] := by
  constructor
  · simp [evalK, contV, withOut, to_env_value, one_type_check_string,
      one_type_check_f64, downcast_bool]
  · rfl

/-- C5 counterexample: the successful non-print top-level statement
consisting of the bare expression a + b on strings writes the rendered
line ab to the output sink (run_script echoes every non-Void result),
refuting the only-print-writes part of the claim. -/
theorem c5_counterexample :
    runStmt 10 (.Plus (.String "a") (.String "b")) Environment.new =
      some (.ok (.String "ab"), Environment.new, ["ab"]) ∧
    ∀ o : AstType, AstType.Plus (.String "a") (.String "b") ≠ .Print o :=
  ⟨rfl, fun _ h => AstType.noConfusion h⟩

/-- C5 amended: a successful top-level statement writes the lines printed
during its evaluation plus an echo of its own result, and the echo is
empty exactly when the result is not a number, string or boolean (print
statements and declarations return Void, so they add no echo; bare
expression statements echo their value). -/
theorem c5_output_contract (fuel : Nat) (a : AstType) (env e : Environment)
    (r : ReturnType) (o ls : List Str)
    (h1 : evalK fuel (.expr a) env = some (.v (.ok r), e, o))
    (h2 : printLines r = some ls) :
    runStmt fuel a env = some (.ok r, e, o ++ ls) ∧
    (ls = [] ↔
      (one_type_check_f64 r || one_type_check_string r ||
        one_type_check_bool r) = false) := by
  constructor
  · simp [runStmt, h1, h2]
  · unfold printLines at h2
    split at h2
    · rename_i hf
      cases hd : downcast_f64 r with
      | none => rw [hd] at h2; simp at h2
      | some q =>
        rw [hd] at h2
        simp at h2
        subst h2
        simp [hf]
    · split at h2
      · rename_i hf hs
        cases hd : downcast_string r with
        | none => rw [hd] at h2; simp at h2
        | some q =>
          rw [hd] at h2
          simp at h2
          subst h2
          simp [hs]
      · split at h2
        · rename_i hf hs hb
          cases hd : downcast_bool r with
          | none => rw [hd] at h2; simp at h2
          | some q =>
            rw [hd] at h2
            simp at h2
            subst h2
            simp [hb]
        · rename_i hf hs hb
          simp at h2
          subst h2
          simp [hf, hs, hb]

/-- C5 witness: a print statement writes exactly its own line and its
Void result adds no echo. -/
theorem c5_witness :
    evalK 10 (.expr (.Print (.String "hi"))) Environment.new =
      some (.v (.ok .Void), Environment.new, ["hi"]) ∧
    printLines .Void = some [] ∧
    (runStmt 10 (.Print (.String "hi")) Environment.new =
        some (.ok .Void, Environment.new, ["hi"] ++ []) ∧
     (([] : List Str) = [] ↔
       (one_type_check_f64 .Void || one_type_check_string .Void ||
         one_type_check_bool .Void) = false)) :=
  ⟨rfl, rfl, c5_output_contract 10 (.Print (.String "hi")) Environment.new
    Environment.new .Void ["hi"] [] rfl rfl⟩

/-- C6: and/or evaluate both operands eagerly: once the left operand
evaluates to a value, the right operand is always evaluated (its side
effects happen and its error propagates even when the left value already
determines a short-circuit answer); two boolean operands yield the
conjunction/disjunction, and any other value pair yields the typed
two-operand mismatch error. -/
theorem c6_and_or_eager (f : Nat) (l r : AstType) (env e1 : Environment)
    (lv : ReturnType) (o1 : List Str)
    (hl : evalK f (.expr l) env = some (.v (.ok lv), e1, o1)) :
    (∀ er e2 o2, evalK f (.expr r) e1 = some (.v (.err er), e2, o2) →
      evalK (f + 1) (.expr (.And l r)) env =
        some (.v (.err er), e2, o1 ++ o2) ∧
      evalK (f + 1) (.expr (.Or l r)) env =
        some (.v (.err er), e2, o1 ++ o2)) ∧
    (∀ rv e2 o2, evalK f (.expr r) e1 = some (.v (.ok rv), e2, o2) →
      (evalK (f + 1) (.expr (.And l r)) env =
          some (.v (and_eval lv rv), e2, o1 ++ o2) ∧
       evalK (f + 1) (.expr (.Or l r)) env =
          some (.v (or_eval lv rv), e2, o1 ++ o2)) ∧
      (∀ a b, lv = .Bool a → rv = .Bool b →
        and_eval lv rv = .ok (.Bool (a && b)) ∧
        or_eval lv rv = .ok (.Bool (a || b))) ∧
      (type_check_bool lv rv = false →
        and_eval lv rv = .err (.TwoOperandType lv rv) ∧
        or_eval lv rv = .err (.TwoOperandType lv rv))) := by
  constructor
  · intro er e2 o2 hr
    constructor <;> simp [evalK, contV, withOut, hl, hr]
  · intro rv e2 o2 hr
    refine ⟨by constructor <;> simp [evalK, contV, withOut, hl, hr], ?_, ?_⟩
    · intro a b ha hb
      subst ha
      subst hb
      constructor <;>
        simp [and_eval, or_eval, type_check_bool, one_type_check_bool,
          downcast_bool]
    · intro hm
      constructor <;> simp [and_eval, or_eval, hm]

/-- C6 witness: false and (print 1) evaluates the right operand (the line
1 is printed) and then fails with the typed mismatch, not with a
short-circuited false. -/
theorem c6_witness :
    evalK 5 (.expr .False) Environment.new =
      some (.v (.ok (.Bool false)), Environment.new, []) ∧
    evalK 5 (.expr (.Print (.Number 1))) Environment.new =
      some (.v (.ok .Void), Environment.new, ["1"]) ∧
    evalK 6 (.expr (.And .False (.Print (.Number 1)))) Environment.new =
      some (.v (and_eval (.Bool false) .Void), Environment.new,
        [] ++ ["1"]) ∧
    and_eval (.Bool false) .Void =
      .err (.TwoOperandType (.Bool false) .Void) :=
  ⟨rfl, rfl,
    (((c6_and_or_eager 5 .False (.Print (.Number 1)) Environment.new
        Environment.new (.Bool false) [] rfl).2 .Void Environment.new
        ["1"] rfl).1).1,
    rfl⟩

/-- C7: every successfully parsed for statement is returned as exactly
the desugared block init; while cond (block body; incr), with the
condition defaulting to the literal true and the increment to the no-op
Nil node when omitted, as the two concrete whole-program parses show
(the second also exercising the fully populated for header). -/
theorem c7_for_desugaring :
    (∀ (toks : List Tok) (f pos : Nat) (a : AstType) (p2 : Nat),
      parseF toks f .forStatement pos = some (.ok (.ast a), p2) →
      ∃ ini c s inc, a = .Block [ini, .While c (.Block [s, inc])]) ∧
    programF 50 [Tok.For, Tok.LeftParen, Tok.SemiColon, Tok.SemiColon,
        Tok.RightParen, Tok.Print, Tok.Number 1, Tok.SemiColon, Tok.Eof] =
      some [.Block [.Nil, .While .True (.Block [.Print (.Number 1), .Nil])]] ∧
    programF 80 [Tok.For, Tok.LeftParen, Tok.Var, Tok.Identifier "i",
        Tok.Equal, Tok.Number 0, Tok.SemiColon, Tok.Identifier "i",
        Tok.Less, Tok.Number 3, Tok.SemiColon, Tok.Identifier "i",
        Tok.Equal, Tok.Identifier "i", Tok.Plus, Tok.Number 1,
        Tok.RightParen, Tok.Print, Tok.Identifier "i", Tok.SemiColon,
        Tok.Eof] =
      some [.Block [.Var "i" (.Number 0),
        .While (.Less (.Identifier "i") (.Number 3))
          (.Block [.Print (.Identifier "i"),
            .Assign "i" (.Plus (.Identifier "i") (.Number 1))])]] := by
  refine ⟨?_, rfl, rfl⟩
  intro toks f pos a p2 h
  cases f with
  | zero => simp [parseF] at h
  | succ f =>
    simp only [parseF] at h
    obtain ⟨t0, q0, hc0, h⟩ := bindTok_ok_inv h
    obtain ⟨ini, q1, hp1, h⟩ := bindAst_ok_inv h
    obtain ⟨c, q2, hp2, h⟩ := bindAst_ok_inv h
    obtain ⟨t1, q3, hc1, h⟩ := bindTok_ok_inv h
    obtain ⟨inc, q4, hp4, h⟩ := bindAst_ok_inv h
    obtain ⟨t2, q5, hc2, h⟩ := bindTok_ok_inv h
    obtain ⟨s, q6, hp6, h⟩ := bindAst_ok_inv h
    simp at h
    exact ⟨ini, c, s, inc, h.1.symm⟩

/-- C7 witness: the general shape clause applied to the concrete parse of
for with empty header slots. -/
theorem c7_witness :
    parseF [Tok.For, Tok.LeftParen, Tok.SemiColon, Tok.SemiColon,
        Tok.RightParen, Tok.Print, Tok.Number 1, Tok.SemiColon, Tok.Eof]
        40 .forStatement 1 =
      some (.ok (.ast (.Block [.Nil,
        .While .True (.Block [.Print (.Number 1), .Nil])])), 8) ∧
    ∃ ini c s inc,
      AstType.Block [.Nil, .While .True (.Block [.Print (.Number 1), .Nil])] =
        .Block [ini, .While c (.Block [s, inc])] :=
  ⟨rfl, c7_for_desugaring.1 [Tok.For, Tok.LeftParen, Tok.SemiColon,
    Tok.SemiColon, Tok.RightParen, Tok.Print, Tok.Number 1, Tok.SemiColon,
    Tok.Eof] 40 1
    (.Block [.Nil, .While .True (.Block [.Print (.Number 1), .Nil])]) 8 rfl⟩

/-- C8: with x and y bound in the enclosing chain and z fresh, the block
var x = n; var z = m; y = x re-declares x (shadowing it for the read on
the right of the assignment, which therefore sees n), leaves the outer x
unchanged after the block exits, folds the plain assignment to y back
into the enclosing chain where it is visible afterwards, and does not
leak the block-local z. -/
theorem c8_block_scoping (f : Nat) (env : Environment) (x y z : Str)
    (vx vy : Value) (n m : Rat) (hxy : x ≠ y) (hyz : y ≠ z) (hzx : z ≠ x)
    (hx : env.get x = .ok (some vx)) (hy : env.get y = .ok (some vy))
    (hz : boundAnywhere env z = false) :
    evalK (f + 6) (.expr (.Block [.Var x (.Number n), .Var z (.Number m),
        .Assign y (.Identifier x)])) env =
      some (.v (.ok .Void), env.push y (.F64 n), []) ∧
    (env.push y (.F64 n)).get x = .ok (some vx) ∧
    (env.push y (.F64 n)).get y = .ok (some (.F64 n)) ∧
    boundAnywhere (env.push y (.F64 n)) z = false := by
  refine ⟨?_, ?_, ?_, ?_⟩
  · simp [evalK, contV, withOut, Environment.with_enclosing,
      Environment.define, Environment.enclosing, Environment.vars,
      Environment.get, mapGet, mapInsert, to_env_value,
      one_type_check_string, one_type_check_f64, downcast_f64,
      hxy, Ne.symm hyz, Ne.symm hzx, hy, Environment.push]
  · rw [get_push_other env y x (.F64 n) (Ne.symm hxy)]
    exact hx
  · exact get_push_same env y (.F64 n) vy hy
  · rw [boundAnywhere_push env y z (.F64 n) hyz]
    exact hz

/-- C8 witness: a concrete outer scope binding a and b, with c fresh. -/
theorem c8_witness :
    "a" ≠ "b" ∧ "b" ≠ "c" ∧ "c" ≠ "a" ∧
    (Environment.mk none [("a", Value.Bool true), ("b", .F64 0)]).get "a" =
      .ok (some (.Bool true)) ∧
    (Environment.mk none [("a", Value.Bool true), ("b", .F64 0)]).get "b" =
      .ok (some (.F64 0)) ∧
    boundAnywhere (Environment.mk none [("a", Value.Bool true),
      ("b", .F64 0)]) "c" = false ∧
    evalK 6 (.expr (.Block [.Var "a" (.Number 5), .Var "c" (.Number 9),
        .Assign "b" (.Identifier "a")]))
        (Environment.mk none [("a", Value.Bool true), ("b", .F64 0)]) =
      some (.v (.ok .Void),
        (Environment.mk none [("a", Value.Bool true), ("b", .F64 0)]).push
          "b" (.F64 5), []) :=
  ⟨by decide, by decide, by decide, rfl, rfl, rfl,
    (c8_block_scoping 0
      (Environment.mk none [("a", Value.Bool true), ("b", .F64 0)])
      "a" "b" "c" (.Bool true) (.F64 0) 5 9
      (by decide) (by decide) (by decide) rfl rfl rfl).1⟩

/-- C9: the claim says program terminates on every finite Eof-terminated
token sequence.  On the sequence var EOF the parse loop makes no
progress (declaration fails at Eof without consuming, synchronize backs
up to the same var token) and runs forever, witnessed by fuel exhaustion
at every budget; the empty program does return the empty statement list
(the read-position underflow in back wraps and the loop exits). -/
theorem c9_program_termination :
    (∀ fuel : Nat, programF fuel [Tok.Var, Tok.Eof] = none) ∧
    programF 10 [Tok.Eof] = some [] := by
  constructor
  · intro fuel
    unfold programF
    rw [c9_loop fuel]
  · rfl

/-- C10 counterexample: a call to the entirely undeclared name g panics
in Environment::get (unwrap of the absent enclosing scope) instead of
producing the NotFoundFunc error that a bound non-callable callee
produces, refuting the same-error part of the claim. -/
theorem c10_counterexample :
    evalK 5 (.expr (.Call "g" [])) (Environment.mk none [("x", .F64 1)]) =
      some (.v .panicked, Environment.mk none [("x", .F64 1)], []) := rfl

/-- C10 amended: when the arguments evaluate successfully and the callee
name is bound (after argument evaluation) to a non-callable scalar, the
call returns the NotFoundFunc error, not a type mismatch, and leaves the
post-argument environment untouched; an entirely undeclared callee
instead panics in Environment::get. -/
theorem c10_noncallable_callee (f : Nat) (args : List AstType)
    (callee : Str) (env e1 : Environment) (vals : List Operand)
    (o : List Str) (v : Value)
    (hargs : evalK f (.argsEv args []) env = some (.vs vals, e1, o))
    (hb : e1.get callee = .ok (some v)) (hs : isScalar v = true) :
    evalK (f + 1) (.expr (.Call callee args)) env =
      some (.v (.err (.NotFoundFunc callee)), e1, o) := by
  simp only [evalK]
  rw [hargs]
  cases v <;> simp_all [isScalar, hb]

/-- C10 witness: x bound to a number, called with no arguments. -/
theorem c10_witness :
    evalK 1 (.argsEv [] []) (Environment.mk none [("x", .F64 1)]) =
      some (.vs [], Environment.mk none [("x", .F64 1)], []) ∧
    (Environment.mk none [("x", .F64 1)]).get "x" = .ok (some (.F64 1)) ∧
    isScalar (.F64 1) = true ∧
    evalK 2 (.expr (.Call "x" [])) (Environment.mk none [("x", .F64 1)]) =
      some (.v (.err (.NotFoundFunc "x")),
        Environment.mk none [("x", .F64 1)], []) :=
  ⟨rfl, rfl, rfl,
    c10_noncallable_callee 1 [] "x" (Environment.mk none [("x", .F64 1)])
      (Environment.mk none [("x", .F64 1)]) [] [] (.F64 1) rfl rfl rfl⟩

theorem backW_succ (p : Nat) (h : p < USIZE) : backW (p + 1) = p := by
  unfold backW
  have h1 : p + 1 + (USIZE - 1) = p + USIZE := by unfold USIZE; omega
  rw [h1, Nat.add_mod_right, Nat.mod_eq_of_lt h]

/-- Parsing one identifier as a full expression: when the next token is a
comma or a closing parenthesis, expression consumes exactly the
identifier. -/
theorem expr_ident (toks : List Tok) (g p : Nat) (t : Tok)
    (hp : p + 1 < USIZE)
    (h1 : tokenF toks p = some (.Identifier "a", p + 1))
    (h2 : tokenF toks (p + 1) = some (t, p + 1 + 1))
    (ht : t = .Comma ∨ t = .RightParen) :
    parseF toks (g + 11) .expression p =
      some (.ok (.ast (.Identifier "a")), p + 1) := by
  have hp0 : p < USIZE := by omega
  rcases ht with ht | ht <;>
    subst ht <;>
    simp [parseF, bindAst, bindTok, h1, h2, backW_succ p hp0,
      backW_succ (p + 1) hp]

/-- One full iteration of the arguments loop under the cap: one argument
and the following comma are consumed at a cost of two fuel units. -/
theorem args_step (toks : List Tok) (g p : Nat) (acc : List AstType)
    (hp : p + 1 < USIZE)
    (h1 : tokenF toks p = some (.Identifier "a", p + 1))
    (h2 : tokenF toks (p + 1) = some (.Comma, p + 1 + 1))
    (hlen : acc.length + 1 < 255) :
    parseF toks (g + 12) (.arguments acc) p =
      parseF toks (g + 10) (.arguments (acc ++ [.Identifier "a"])) (p + 1 + 1) := by
  have hp0 : p < USIZE := by omega
  have he := expr_ident toks g p .Comma hp h1 h2 (Or.inl rfl)
  conv_lhs => rw [parseF]
  simp only [h1]
  rw [backW_succ p hp0, he]
  simp only []
  rw [if_neg (by simp; omega)]
  conv_lhs => rw [parseF]
  simp only [h2]

theorem argSeq_len : ∀ k, (argSeq (k + 1)).length = 2 * k + 1
  | 0 => rfl
  | k + 1 => by
    show (Tok.Identifier "a" :: Tok.Comma :: argSeq (k + 1)).length = _
    simp [argSeq_len k]
    omega

theorem argSeq_getD_even : ∀ k j d, j ≤ k →
    (argSeq (k + 1)).getD (2 * j) d = Tok.Identifier "a"
  | 0, 0, d, _ => rfl
  | 0, j + 1, d, h => absurd h (by omega)
  | k + 1, 0, d, _ => rfl
  | k + 1, j + 1, d, h => by
    have ih := argSeq_getD_even k j d (by omega)
    have h2 : 2 * (j + 1) = 2 * j + 1 + 1 := by omega
    rw [h2]
    show (Tok.Identifier "a" :: Tok.Comma :: argSeq (k + 1)).getD (2 * j + 1 + 1) d = _
    simpa using ih

theorem argSeq_getD_odd : ∀ k j d, j < k →
    (argSeq (k + 1)).getD (2 * j + 1) d = Tok.Comma
  | 0, j, d, h => absurd h (by omega)
  | k + 1, 0, d, _ => rfl
  | k + 1, j + 1, d, h => by
    have ih := argSeq_getD_odd k j d (by omega)
    have h2 : 2 * (j + 1) + 1 = 2 * j + 1 + 1 + 1 := by omega
    rw [h2]
    show (Tok.Identifier "a" :: Tok.Comma :: argSeq (k + 1)).getD (2 * j + 1 + 1 + 1) d = _
    simpa using ih

/-- Characterization of Parser::token by index and content. -/
theorem tokenF_eq (toks : List Tok) (p : Nat) (t : Tok)
    (hp : p < toks.length) (hg : toks.getD p Tok.Eof = t) (hne : t ≠ Tok.Eof) :
    tokenF toks p = some (t, p + 1) := by
  unfold tokenF endP
  rw [hg]
  simp [hne]
  omega

theorem shape_len (t0 t1 : Tok) (rest : List Tok) (n : Nat) :
    (t0 :: t1 :: (argSeq (n + 1) ++ rest)).length = 2 * n + 3 + rest.length := by
  simp [argSeq_len]
  omega

/-- Identifier token lookup inside the comma-separated list. -/
theorem tok_ident (t0 t1 : Tok) (rest : List Tok) (n j : Nat) (h : j ≤ n) :
    tokenF (t0 :: t1 :: (argSeq (n + 1) ++ rest)) (2 + 2 * j) =
      some (.Identifier "a", 2 + 2 * j + 1) := by
  refine tokenF_eq _ _ _ (by rw [shape_len]; omega) ?_ (by simp)
  have h2 : 2 + 2 * j = 2 * j + 1 + 1 := by omega
  rw [h2]
  show (argSeq (n + 1) ++ rest).getD (2 * j) Tok.Eof = _
  rw [List.getD_append _ _ _ _ (by rw [argSeq_len]; omega)]
  exact argSeq_getD_even n j _ h

/-- Comma token lookup inside the comma-separated list. -/
theorem tok_comma (t0 t1 : Tok) (rest : List Tok) (n j : Nat) (h : j < n) :
    tokenF (t0 :: t1 :: (argSeq (n + 1) ++ rest)) (2 + 2 * j + 1) =
      some (.Comma, 2 + 2 * j + 1 + 1) := by
  refine tokenF_eq _ _ _ (by rw [shape_len]; omega) ?_ (by simp)
  have h2 : 2 + 2 * j + 1 = 2 * j + 1 + 1 + 1 := by omega
  rw [h2]
  show (argSeq (n + 1) ++ rest).getD (2 * j + 1) Tok.Eof = _
  rw [List.getD_append _ _ _ _ (by rw [argSeq_len]; omega)]
  exact argSeq_getD_odd n j _ h

/-- Token lookup past the comma-separated list. -/
theorem tok_rest (t0 t1 : Tok) (rest : List Tok) (n i : Nat)
    (hi : i < rest.length) (hne : rest.getD i Tok.Eof ≠ Tok.Eof) :
    tokenF (t0 :: t1 :: (argSeq (n + 1) ++ rest)) (2 * n + 3 + i) =
      some (rest.getD i Tok.Eof, 2 * n + 3 + i + 1) := by
  refine tokenF_eq _ _ _ (by rw [shape_len]; omega) ?_ hne
  have h2 : 2 * n + 3 + i = 2 * n + 1 + i + 1 + 1 := by omega
  rw [h2]
  show (argSeq (n + 1) ++ rest).getD (2 * n + 1 + i) Tok.Eof = _
  rw [List.getD_append_right _ _ _ _ (by rw [argSeq_len]; omega), argSeq_len]
  congr 1
  omega

/-- Iterating the arguments loop: k below-cap arguments and their commas
are consumed at two fuel units each. -/
theorem args_iter : ∀ (k : Nat) (toks : List Tok) (g p : Nat)
    (acc : List AstType),
    p + 2 * k + 1 < USIZE →
    (∀ j, j < k → tokenF toks (p + 2 * j) =
      some (.Identifier "a", p + 2 * j + 1)) →
    (∀ j, j < k → tokenF toks (p + 2 * j + 1) =
      some (.Comma, p + 2 * j + 1 + 1)) →
    acc.length + k < 255 →
    parseF toks (2 * k + g + 12) (.arguments acc) p =
      parseF toks (g + 12)
        (.arguments (acc ++ List.replicate k (.Identifier "a"))) (p + 2 * k)
  | 0, toks, g, p, acc, _, _, _, _ => by simp
  | k + 1, toks, g, p, acc, hb, hid, hco, hlen => by
    have h1 : tokenF toks p = some (.Identifier "a", p + 1) := by
      simpa using hid 0 (by omega)
    have h2 : tokenF toks (p + 1) = some (.Comma, p + 1 + 1) := by
      simpa using hco 0 (by omega)
    have hfuel : 2 * (k + 1) + g + 12 = (2 * k + g) + 12 + 2 := by omega
    rw [hfuel]
    have hstep := args_step toks (2 * k + g + 2) p acc (by unfold USIZE at hb ⊢; omega)
      h1 h2 (by omega)
    have hfuel2 : 2 * k + g + 2 + 12 = (2 * k + g) + 12 + 2 := by omega
    rw [hfuel2] at hstep
    rw [hstep]
    have hfuel3 : 2 * k + g + 2 + 10 = 2 * k + g + 12 := by omega
    rw [hfuel3]
    have ih := args_iter k toks g (p + 1 + 1) (acc ++ [.Identifier "a"])
      (by omega)
      (fun j hj => by
        have := hid (j + 1) (by omega)
        have he : p + 2 * (j + 1) = p + 1 + 1 + 2 * j := by omega
        rw [he] at this
        simpa using this)
      (fun j hj => by
        have := hco (j + 1) (by omega)
        have he : p + 2 * (j + 1) = p + 1 + 1 + 2 * j := by omega
        rw [he] at this
        simpa using this)
      (by simp; omega)
    rw [ih]
    have hpos : p + 1 + 1 + 2 * k = p + 2 * (k + 1) := by omega
    have hacc : (acc ++ [AstType.Identifier "a"]) ++
        List.replicate k (AstType.Identifier "a") =
        acc ++ List.replicate (k + 1) (AstType.Identifier "a") := by
      simp [List.replicate_succ]
    rw [hpos, hacc]

/-- Characterization of Parser::consume from a token lookup. -/
theorem consumeF_of_tokenF {toks : List Tok} {q : Nat} {t : Tok} (e : Tok)
    (h : tokenF toks q = some (t, q + 1)) :
    consumeF toks (some e) q =
      if e = t then (.ok t, q + 1)
      else (.error (.NotFoundToken (Tok.fmt e)), q + 1) := by
  have hend : endP toks q = false := by
    by_cases he : endP toks q = true
    · unfold tokenF at h; simp [he] at h
    · simpa using he
  unfold consumeF
  rw [hend, h]
  simp

/-- Consuming the expected token succeeds and advances. -/
theorem consumeF_ok {toks : List Tok} {q : Nat} (e : Tok)
    (h : tokenF toks q = some (e, q + 1)) :
    consumeF toks (some e) q = (.ok e, q + 1) := by
  rw [consumeF_of_tokenF e h]
  simp

/-- Consuming against a different current token fails with the
NotFoundToken error naming the expected token. -/
theorem consumeF_err {toks : List Tok} {q : Nat} (e t : Tok)
    (h : tokenF toks q = some (t, q + 1)) (hne : e ≠ t) :
    consumeF toks (some e) q =
      (.error (.NotFoundToken (Tok.fmt e)), q + 1) := by
  rw [consumeF_of_tokenF e h]
  simp [hne]

/-- The arguments loop at the cap with a comma pending: the parser stops
collecting, demands the closing parenthesis, and fails. -/
theorem args_cap_err (toks : List Tok) (g p : Nat) (acc : List AstType)
    (hp : p + 1 < USIZE)
    (h1 : tokenF toks p = some (.Identifier "a", p + 1))
    (h2 : tokenF toks (p + 1) = some (.Comma, p + 1 + 1))
    (hlen : acc.length = 254) :
    parseF toks (g + 12) (.arguments acc) p =
      some (.error (.NotFoundToken "RightParen"), p + 1 + 1) := by
  have hp0 : p < USIZE := by omega
  have he := expr_ident toks g p .Comma hp h1 h2 (Or.inl rfl)
  conv_lhs => rw [parseF]
  simp only [h1]
  rw [backW_succ p hp0, he]
  simp only []
  rw [if_pos (by simp [hlen])]
  rw [consumeF_of_tokenF .RightParen h2]
  simp [bindTok, Tok.fmt]

/-- The arguments loop at the cap with the closing parenthesis next: the
255-entry list parses successfully. -/
theorem args_cap_ok (toks : List Tok) (g p : Nat) (acc : List AstType)
    (hp : p + 1 < USIZE)
    (h1 : tokenF toks p = some (.Identifier "a", p + 1))
    (h2 : tokenF toks (p + 1) = some (.RightParen, p + 1 + 1))
    (hlen : acc.length = 254) :
    parseF toks (g + 12) (.arguments acc) p =
      some (.ok (.list (acc ++ [.Identifier "a"])), p + 1 + 1) := by
  have hp0 : p < USIZE := by omega
  have he := expr_ident toks g p .RightParen hp h1 h2 (Or.inr rfl)
  conv_lhs => rw [parseF]
  simp only [h1]
  rw [backW_succ p hp0, he]
  simp only []
  rw [if_pos (by simp [hlen])]
  rw [consumeF_of_tokenF .RightParen h2]
  simp [bindTok]

/-- Assembling a call parse: an identifier callee, the opening
parenthesis and a successful arguments loop yield the Call node. -/
theorem call_assemble_ok (toks : List Tok) (g q : Nat) (i : Str)
    (args : List AstType)
    (h0 : tokenF toks 0 = some (.Identifier i, 1))
    (h1 : tokenF toks 1 = some (.LeftParen, 2))
    (hargs : parseF toks (g + 1) (.arguments []) 2 =
      some (.ok (.list args), q)) :
    parseF toks (g + 2) .call 0 = some (.ok (.ast (.Call i args)), q) := by
  have hprim : parseF toks (g + 1) .primary 0 =
      some (.ok (.ast (.Identifier i)), 1) := by
    conv_lhs => rw [parseF]
    simp only [h0]
  conv_lhs => rw [parseF]
  rw [hprim]
  simp only [bindAst, h1]
  rw [hargs]
  simp only [bindList]

/-- Assembling a call parse whose arguments loop fails: the error is
passed through unchanged. -/
theorem call_assemble_err (toks : List Tok) (g q : Nat) (i : Str)
    (err : ParseError)
    (h0 : tokenF toks 0 = some (.Identifier i, 1))
    (h1 : tokenF toks 1 = some (.LeftParen, 2))
    (hargs : parseF toks (g + 1) (.arguments []) 2 =
      some (.error err, q)) :
    parseF toks (g + 2) .call 0 = some (.error err, q) := by
  have hprim : parseF toks (g + 1) .primary 0 =
      some (.ok (.ast (.Identifier i)), 1) := by
    conv_lhs => rw [parseF]
    simp only [h0]
  conv_lhs => rw [parseF]
  rw [hprim]
  simp only [bindAst, h1]
  rw [hargs]
  simp only [bindList]

set_option maxRecDepth 10000 in
theorem c4x : parseF (callToks 256) 700 .call 0 =
    some (.error (.NotFoundToken "RightParen"), 512) := by
  have hlist : callToks 256 = Tok.Identifier "f" :: Tok.LeftParen ::
      (argSeq (255 + 1) ++ [Tok.RightParen, Tok.SemiColon, Tok.Eof]) := rfl
  set L : List Tok := Tok.Identifier "f" :: Tok.LeftParen ::
      (argSeq (255 + 1) ++ [Tok.RightParen, Tok.SemiColon, Tok.Eof]) with hL
  have hargs : parseF L (2 * 254 + 179 + 12) (.arguments []) 2 =
      some (.error (.NotFoundToken "RightParen"), 2 + 2 * 254 + 1 + 1) := by
    rw [args_iter 254 L 179 2 []
      (by norm_num [USIZE])
      (fun j hj => tok_ident _ _ _ 255 j (by omega))
      (fun j hj => tok_comma _ _ _ 255 j (by omega))
      (by simp)]
    have hcap := args_cap_err L 179 (2 + 2 * 254)
      (List.replicate 254 (.Identifier "a"))
      (by norm_num [USIZE])
      (tok_ident _ _ _ 255 254 (by omega))
      (tok_comma _ _ _ 255 254 (by omega))
      (by simp)
    simpa using hcap
  have tokF0 : tokenF L 0 = some (.Identifier "f", 1) :=
    tokenF_eq _ _ _ (by rw [hL]; simp) rfl (by decide)
  have tokF1 : tokenF L 1 = some (.LeftParen, 2) :=
    tokenF_eq _ _ _ (by rw [hL]; simp) rfl (by decide)
  norm_num at hargs
  rw [hlist]
  exact call_assemble_err L 698 512 "f" (.NotFoundToken "RightParen")
    tokF0 tokF1 hargs

set_option maxRecDepth 10000 in
theorem c4y : parseF (callToks 255) 700 .call 0 =
    some (.ok (.ast (.Call "f"
      (List.replicate 255 (.Identifier "a")))), 512) := by
  have hlist : callToks 255 = Tok.Identifier "f" :: Tok.LeftParen ::
      (argSeq (254 + 1) ++ [Tok.RightParen, Tok.SemiColon, Tok.Eof]) := rfl
  set L : List Tok := Tok.Identifier "f" :: Tok.LeftParen ::
      (argSeq (254 + 1) ++ [Tok.RightParen, Tok.SemiColon, Tok.Eof]) with hL
  have hrp : tokenF L (2 + 2 * 254 + 1) = some (.RightParen, 2 + 2 * 254 + 1 + 1) := by
    have := tok_rest (Tok.Identifier "f") Tok.LeftParen
      [Tok.RightParen, Tok.SemiColon, Tok.Eof] 254 0 (by simp) (by decide)
    have he : 2 * 254 + 3 + 0 = 2 + 2 * 254 + 1 := by omega
    rw [he] at this
    simpa using this
  have hargs : parseF L (2 * 254 + 179 + 12) (.arguments []) 2 =
      some (.ok (.list (List.replicate 255 (.Identifier "a"))), 2 + 2 * 254 + 1 + 1) := by
    rw [args_iter 254 L 179 2 []
      (by norm_num [USIZE])
      (fun j hj => tok_ident _ _ _ 254 j (by omega))
      (fun j hj => tok_comma _ _ _ 254 j (by omega))
      (by simp)]
    have hcap := args_cap_ok L 179 (2 + 2 * 254)
      (List.replicate 254 (.Identifier "a"))
      (by norm_num [USIZE])
      (tok_ident _ _ _ 254 254 (by omega))
      hrp
      (by simp)
    have hrep : List.replicate 254 (AstType.Identifier "a") ++ [AstType.Identifier "a"] =
        List.replicate 255 (AstType.Identifier "a") := by
      rw [← List.replicate_succ']
    rw [hrep] at hcap
    simpa using hcap
  have tokF0 : tokenF L 0 = some (.Identifier "f", 1) :=
    tokenF_eq _ _ _ (by rw [hL]; simp) rfl (by decide)
  have tokF1 : tokenF L 1 = some (.LeftParen, 2) :=
    tokenF_eq _ _ _ (by rw [hL]; simp) rfl (by decide)
  norm_num at hargs
  rw [hlist]
  exact call_assemble_ok L 698 512 "f"
    (List.replicate 255 (.Identifier "a")) tokF0 tokF1 hargs

/-- fun_one_parameter on an identifier token consumes exactly it. -/
theorem funOne_ident (toks : List Tok) (g p : Nat) (hp : p < USIZE)
    (h1 : tokenF toks p = some (.Identifier "a", p + 1)) :
    parseF toks (g + 2) .funOneParameter p =
      some (.ok (.ast (.Identifier "a")), p + 1) := by
  show parseF toks ((g + 1) + 1) .funOneParameter p = _
  rw [parseF]
  simp only [h1, backW_succ p hp]
  show parseF toks (g + 1) .primary p = _
  rw [parseF]
  simp only [h1]

/-- One full iteration of the fun_parameters loop under the cap. -/
theorem fp_step (toks : List Tok) (g p : Nat) (acc : List AstType)
    (hp : p + 1 < USIZE)
    (h1 : tokenF toks p = some (.Identifier "a", p + 1))
    (h2 : tokenF toks (p + 1) = some (.Comma, p + 1 + 1))
    (hlen : acc.length + 1 < 255) :
    parseF toks (g + 4) (.funParameters acc) p =
      parseF toks (g + 2) (.funParameters (acc ++ [.Identifier "a"])) (p + 1 + 1) := by
  have hp0 : p < USIZE := by omega
  have he := funOne_ident toks (g + 1) p hp0 h1
  conv_lhs => rw [parseF]
  simp only [h1]
  rw [backW_succ p hp0, he]
  simp only [bindAst]
  rw [if_neg (by simp; omega)]
  conv_lhs => rw [parseF]
  simp only [h2]

/-- Iterating the fun_parameters loop. -/
theorem fp_iter : ∀ (k : Nat) (toks : List Tok) (g p : Nat)
    (acc : List AstType),
    p + 2 * k + 1 < USIZE →
    (∀ j, j < k → tokenF toks (p + 2 * j) =
      some (.Identifier "a", p + 2 * j + 1)) →
    (∀ j, j < k → tokenF toks (p + 2 * j + 1) =
      some (.Comma, p + 2 * j + 1 + 1)) →
    acc.length + k < 255 →
    parseF toks (2 * k + g + 4) (.funParameters acc) p =
      parseF toks (g + 4)
        (.funParameters (acc ++ List.replicate k (.Identifier "a"))) (p + 2 * k)
  | 0, toks, g, p, acc, _, _, _, _ => by simp
  | k + 1, toks, g, p, acc, hb, hid, hco, hlen => by
    have h1 : tokenF toks p = some (.Identifier "a", p + 1) := by
      simpa using hid 0 (by omega)
    have h2 : tokenF toks (p + 1) = some (.Comma, p + 1 + 1) := by
      simpa using hco 0 (by omega)
    have hfuel : 2 * (k + 1) + g + 4 = (2 * k + g) + 4 + 2 := by omega
    rw [hfuel]
    have hstep := fp_step toks (2 * k + g + 2) p acc
      (by unfold USIZE at hb ⊢; omega) h1 h2 (by omega)
    have hfuel2 : 2 * k + g + 2 + 4 = (2 * k + g) + 4 + 2 := by omega
    rw [hfuel2] at hstep
    rw [hstep]
    have hfuel3 : 2 * k + g + 2 + 2 = 2 * k + g + 4 := by omega
    rw [hfuel3]
    have ih := fp_iter k toks g (p + 1 + 1) (acc ++ [.Identifier "a"])
      (by omega)
      (fun j hj => by
        have := hid (j + 1) (by omega)
        have he : p + 2 * (j + 1) = p + 1 + 1 + 2 * j := by omega
        rw [he] at this
        simpa using this)
      (fun j hj => by
        have := hco (j + 1) (by omega)
        have he : p + 2 * (j + 1) = p + 1 + 1 + 2 * j := by omega
        rw [he] at this
        simpa using this)
      (by simp; omega)
    rw [ih]
    have hpos : p + 1 + 1 + 2 * k = p + 2 * (k + 1) := by omega
    have hacc : (acc ++ [AstType.Identifier "a"]) ++
        List.replicate k (AstType.Identifier "a") =
        acc ++ List.replicate (k + 1) (AstType.Identifier "a") := by
      simp [List.replicate_succ]
    rw [hpos, hacc]

/-- The fun_parameters loop at the cap: the 255th parameter is kept and
the loop stops without consuming the next token. -/
theorem fp_cap (toks : List Tok) (g p : Nat) (acc : List AstType)
    (hp : p < USIZE)
    (h1 : tokenF toks p = some (.Identifier "a", p + 1))
    (hlen : acc.length = 254) :
    parseF toks (g + 4) (.funParameters acc) p =
      some (.ok (.list (acc ++ [.Identifier "a"])), p + 1) := by
  have he := funOne_ident toks (g + 1) p hp h1
  conv_lhs => rw [parseF]
  simp only [h1]
  rw [backW_succ p hp, he]
  simp only [bindAst]
  rw [if_pos (by simp [hlen])]

/-- An immediately closed brace parses as the empty block. -/
theorem block_empty (toks : List Tok) (g p : Nat) (hp : p < USIZE)
    (h : tokenF toks p = some (.RightBrace, p + 1)) :
    parseF toks (g + 1) (.blockStatement []) p =
      some (.ok (.ast (.Block [])), p + 1) := by
  conv_lhs => rw [parseF]
  simp only [h]
  rw [backW_succ p hp]
  rw [consumeF_ok .RightBrace h]
  simp [bindTok]

/-- Assembling a fun declaration: name, parameter list, both closing
tokens and the body combine into the Fun node. -/
theorem fun_assemble_ok (toks : List Tok) (g q s : Nat) (i : Str)
    (args : List AstType) (body : AstType)
    (h0 : tokenF toks 0 = some (.Identifier i, 1))
    (h1 : tokenF toks 1 = some (.LeftParen, 2))
    (hps : parseF toks g (.funParameters []) 2 = some (.ok (.list args), q))
    (hrp : tokenF toks q = some (.RightParen, q + 1))
    (hlb : tokenF toks (q + 1) = some (.LeftBrace, q + 1 + 1))
    (hbody : parseF toks g (.blockStatement []) (q + 1 + 1) =
      some (.ok (.ast body), s)) :
    parseF toks (g + 1) .funDeclaration 0 =
      some (.ok (.ast (.Fun i args body)), s) := by
  conv_lhs => rw [parseF]
  simp only [h0]
  rw [consumeF_ok .LeftParen h1]
  simp only [bindTok]
  norm_num
  rw [hps]
  simp only [bindList]
  rw [consumeF_ok .RightParen hrp]
  simp only [bindTok]
  rw [consumeF_ok .LeftBrace hlb]
  simp only [bindTok]
  rw [hbody]
  simp only [bindAst]

/-- Assembling a fun declaration whose parameter list is followed by a
comma: the RightParen consume fails. -/
theorem fun_assemble_err (toks : List Tok) (g q : Nat) (i : Str)
    (args : List AstType)
    (h0 : tokenF toks 0 = some (.Identifier i, 1))
    (h1 : tokenF toks 1 = some (.LeftParen, 2))
    (hps : parseF toks g (.funParameters []) 2 = some (.ok (.list args), q))
    (hcomma : tokenF toks q = some (.Comma, q + 1)) :
    parseF toks (g + 1) .funDeclaration 0 =
      some (.error (.NotFoundToken "RightParen"), q + 1) := by
  conv_lhs => rw [parseF]
  simp only [h0]
  rw [consumeF_ok .LeftParen h1]
  simp only [bindTok]
  norm_num
  rw [hps]
  simp only [bindList]
  rw [consumeF_err .RightParen .Comma hcomma (by decide)]
  simp [bindTok, Tok.fmt]

set_option maxRecDepth 10000 in
theorem c4z : parseF (funToks 256) 700 .funDeclaration 0 =
    some (.error (.NotFoundToken "RightParen"), 512) := by
  have hlist : funToks 256 = Tok.Identifier "g" :: Tok.LeftParen ::
      (argSeq (255 + 1) ++ [Tok.RightParen, Tok.LeftBrace, Tok.RightBrace,
        Tok.Eof]) := rfl
  set L : List Tok := Tok.Identifier "g" :: Tok.LeftParen ::
      (argSeq (255 + 1) ++ [Tok.RightParen, Tok.LeftBrace, Tok.RightBrace,
        Tok.Eof]) with hL
  have hps : parseF L (2 * 254 + 187 + 4) (.funParameters []) 2 =
      some (.ok (.list (List.replicate 255 (.Identifier "a"))), 2 + 2 * 254 + 1) := by
    rw [fp_iter 254 L 187 2 []
      (by norm_num [USIZE])
      (fun j hj => tok_ident _ _ _ 255 j (by omega))
      (fun j hj => tok_comma _ _ _ 255 j (by omega))
      (by simp)]
    have hcap := fp_cap L 187 (2 + 2 * 254)
      (List.replicate 254 (.Identifier "a"))
      (by norm_num [USIZE])
      (tok_ident _ _ _ 255 254 (by omega))
      (by simp)
    have hrep : List.replicate 254 (AstType.Identifier "a") ++ [AstType.Identifier "a"] =
        List.replicate 255 (AstType.Identifier "a") := by
      rw [← List.replicate_succ']
    rw [hrep] at hcap
    simpa using hcap
  have tokF0 : tokenF L 0 = some (.Identifier "g", 1) :=
    tokenF_eq _ _ _ (by rw [hL]; simp) rfl (by decide)
  have tokF1 : tokenF L 1 = some (.LeftParen, 2) :=
    tokenF_eq _ _ _ (by rw [hL]; simp) rfl (by decide)
  have hcomma : tokenF L (2 + 2 * 254 + 1) = some (.Comma, 2 + 2 * 254 + 1 + 1) :=
    tok_comma _ _ _ 255 254 (by omega)
  norm_num at hps hcomma
  rw [hlist]
  exact fun_assemble_err L 699 511 "g"
    (List.replicate 255 (.Identifier "a")) tokF0 tokF1 hps hcomma

set_option maxRecDepth 10000 in
theorem c4w : parseF (funToks 255) 700 .funDeclaration 0 =
    some (.ok (.ast (.Fun "g" (List.replicate 255 (.Identifier "a"))
      (.Block []))), 514) := by
  have hlist : funToks 255 = Tok.Identifier "g" :: Tok.LeftParen ::
      (argSeq (254 + 1) ++ [Tok.RightParen, Tok.LeftBrace, Tok.RightBrace,
        Tok.Eof]) := rfl
  set L : List Tok := Tok.Identifier "g" :: Tok.LeftParen ::
      (argSeq (254 + 1) ++ [Tok.RightParen, Tok.LeftBrace, Tok.RightBrace,
        Tok.Eof]) with hL
  have hrp : tokenF L 511 = some (.RightParen, 512) := by
    have := tok_rest (Tok.Identifier "g") Tok.LeftParen
      [Tok.RightParen, Tok.LeftBrace, Tok.RightBrace, Tok.Eof] 254 0
      (by simp) (by decide)
    have he : 2 * 254 + 3 + 0 = 511 := by norm_num
    rw [he] at this
    simpa using this
  have hlb : tokenF L 512 = some (.LeftBrace, 513) := by
    have := tok_rest (Tok.Identifier "g") Tok.LeftParen
      [Tok.RightParen, Tok.LeftBrace, Tok.RightBrace, Tok.Eof] 254 1
      (by simp) (by decide)
    have he : 2 * 254 + 3 + 1 = 512 := by norm_num
    rw [he] at this
    simpa using this
  have hrb : tokenF L 513 = some (.RightBrace, 514) := by
    have := tok_rest (Tok.Identifier "g") Tok.LeftParen
      [Tok.RightParen, Tok.LeftBrace, Tok.RightBrace, Tok.Eof] 254 2
      (by simp) (by decide)
    have he : 2 * 254 + 3 + 2 = 513 := by norm_num
    rw [he] at this
    simpa using this
  have hps : parseF L (2 * 254 + 187 + 4) (.funParameters []) 2 =
      some (.ok (.list (List.replicate 255 (.Identifier "a"))), 2 + 2 * 254 + 1) := by
    rw [fp_iter 254 L 187 2 []
      (by norm_num [USIZE])
      (fun j hj => tok_ident _ _ _ 254 j (by omega))
      (fun j hj => tok_comma _ _ _ 254 j (by omega))
      (by simp)]
    have hid510 : tokenF L (2 + 2 * 254) = some (.Identifier "a", 2 + 2 * 254 + 1) :=
      tok_ident _ _ _ 254 254 (by omega)
    have hcap := fp_cap L 187 (2 + 2 * 254)
      (List.replicate 254 (.Identifier "a"))
      (by norm_num [USIZE]) hid510 (by simp)
    have hrep : List.replicate 254 (AstType.Identifier "a") ++ [AstType.Identifier "a"] =
        List.replicate 255 (AstType.Identifier "a") := by
      rw [← List.replicate_succ']
    rw [hrep] at hcap
    simpa using hcap
  have tokF0 : tokenF L 0 = some (.Identifier "g", 1) :=
    tokenF_eq _ _ _ (by rw [hL]; simp) rfl (by decide)
  have tokF1 : tokenF L 1 = some (.LeftParen, 2) :=
    tokenF_eq _ _ _ (by rw [hL]; simp) rfl (by decide)
  have hbody : parseF L 699 (.blockStatement []) 513 =
      some (.ok (.ast (.Block [])), 514) := by
    have := block_empty L 698 513 (by norm_num [USIZE]) hrb
    simpa using this
  norm_num at hps
  rw [hlist]
  exact fun_assemble_ok L 699 511 514 "g"
    (List.replicate 255 (.Identifier "a")) (.Block [])
    tokF0 tokF1 hps hrp hlb hbody

/-- C4 counterexample: a call with 256 arguments does not parse
successfully as the claim says; the arguments loop stops at the
255-entry cap and the subsequent consume of RightParen fails on the
pending comma, so the call fails with the NotFoundToken RightParen
parse error at position 512. -/
theorem c4_counterexample : parseF (callToks 256) 700 .call 0 =
    some (.error (.NotFoundToken "RightParen"), 512) := c4x

/-- C4, amended behavior: with exactly 255 entries a call and a fun
declaration still parse to the full 255-entry list, while a fun
declaration with 256 parameters fails with the same
NotFoundToken RightParen error as the 256-argument call. -/
theorem c4_cap_behavior :
    parseF (callToks 255) 700 .call 0 =
      some (.ok (.ast (.Call "f" (List.replicate 255 (.Identifier "a")))), 512) ∧
    parseF (funToks 255) 700 .funDeclaration 0 =
      some (.ok (.ast (.Fun "g" (List.replicate 255 (.Identifier "a"))
        (.Block []))), 514) ∧
    parseF (funToks 256) 700 .funDeclaration 0 =
      some (.error (.NotFoundToken "RightParen"), 512) :=
  ⟨c4y, c4w, c4z⟩

end RLox
